import Mathlib

/-!
# Index-only hash database backend (`tsk/hashdb/idxonly.c`)

A shallow embedding of the four functions of `idxonly.c`:
`idxonly_name`, `idxonly_makeindex`, `idxonly_getentry` and `idxonly_open`.

* C arrays are lists of cells; a read or write outside the list, a read of a
  cell that was never written, and a dereference of `NULL` are reported as
  undefined behaviour (`UB`) instead of being given a value.
* Everything the file uses but does not define (constants of `tsk_hashdb_i.h`,
  the generic index services, the error and lock services, `tsk_verbose`) is a
  field of `Env`; nothing is assumed about it unless a theorem says so.
* Calls that leave the file are recorded, in order, in a call log.
-/

set_option linter.unusedVariables false

namespace IdxOnly

/-! ## Data model -/

/-- Undefined behaviour the C code can run into. -/
inductive UB where
  | null_deref
  | out_of_bounds
  | uninitialised
  deriving DecidableEq

/-- One `char` of an array with automatic storage: `none` is a cell that was never written. -/
abbrev Cell := Option Nat

/-- A stdio stream on a regular file: the bytes of the file and the read position. -/
structure FILE where
  content : List Nat
  pos : Nat
  deriving DecidableEq

/-- Functions that can be stored in the operation slots of a descriptor. -/
inductive HdbFn where
  | idxonly_makeindex
  | idxonly_getentry
  | other (id : Nat)
  deriving DecidableEq

/-- The fields of the index info (`TSK_HDB_BINSRCH_IDX_INFO`) that `idxonly.c` touches:
`base.db_name` (declared `char[TSK_HDB_NAME_MAXLEN]`) and the open index stream `hIdx`. -/
structure TSK_HDB_BINSRCH_IDX_INFO where
  db_name : List Nat
  hIdx : FILE
  deriving DecidableEq

/-- The fields of the generic descriptor (`TSK_HDB_INFO`, the `base` member) that
`idxonly.c` touches. `idx_fname = none` is a NULL pointer; a slot holding `none` is NULL.
The lock is an opaque object: its initialisation is a logged call. -/
structure TSK_HDB_INFO where
  idx_fname : Option (List Nat)
  db_type : Nat
  updateable : Nat
  uses_external_index : Nat
  hash_type : Nat
  hash_len : Nat
  makeindex : Option HdbFn
  add_comment : Option HdbFn
  add_filename : Option HdbFn
  deriving DecidableEq

/-- The text-database descriptor (`TSK_TEXT_HDB_INFO`): the generic part, the `getentry`
slot and the index info reached through `idx` (a valid pointer is the precondition of
`idxonly_name`, which dereferences it unchecked). -/
structure TSK_TEXT_HDB_INFO where
  base : TSK_HDB_INFO
  getentry : Option HdbFn
  idx : TSK_HDB_BINSRCH_IDX_INFO
  deriving DecidableEq

/-- The callback type of a lookup: descriptor, hash, name, context pointer to walk result. -/
abbrev TSK_HDB_LOOKUP_FN := TSK_TEXT_HDB_INFO → List Nat → List Nat → Nat → Nat

/-- A call that leaves `idxonly.c`, with the arguments that were passed. -/
inductive Call where
  | tsk_error_reset
  | tsk_error_set_errno (e : Nat)
  | tsk_error_set_errstr (msg : String)
  | tsk_error_set_errstr2 (msg : String)
  | fprintf_stderr (msg : String)
  | tsk_hdb_idxsetup (hdb_info : TSK_TEXT_HDB_INFO) (htype : Nat)
  | tsk_hdb_name_from_path (hdb_info : TSK_TEXT_HDB_INFO)
  | tsk_hdb_idxinitialize (hdb_info : TSK_TEXT_HDB_INFO) (dbtype : List Nat)
  | tsk_init_lock
  | action (hash : List Nat) (name : List Nat) (cb_ptr : Nat)
  deriving DecidableEq

/-- What `idxonly.c` takes from the rest of the library. The constants come from
`tsk_hashdb_i.h` and `tsk_error.h`; string constants are given by their characters, the
terminating NUL left out. The three index services are functions of the descriptor:
they return their status and the descriptor as they leave it. -/
structure Env where
  TSK_HDB_NAME_MAXLEN : Nat
  TSK_HDB_IDX_HEAD_NAME_STR : List Nat
  TSK_HDB_DBTYPE_MD5SUM_STR : List Nat
  TSK_HDB_HTYPE_MD5_ID : Nat
  TSK_HDB_HTYPE_INVALID_ID : Nat
  TSK_HDB_DBTYPE_IDXONLY_ID : Nat
  TSK_ERR_HDB_ARG : Nat
  tsk_verbose : Nat
  tsk_hdb_idxsetup : TSK_TEXT_HDB_INFO → Nat → Nat × TSK_TEXT_HDB_INFO
  tsk_hdb_name_from_path : TSK_TEXT_HDB_INFO → TSK_TEXT_HDB_INFO
  tsk_hdb_idxinitialize : TSK_TEXT_HDB_INFO → List Nat → Nat × TSK_TEXT_HDB_INFO

/-! ## The C library functions the file calls -/

/-- Read one cell: reading a cell that was never written is undefined. -/
def load : Cell → Except UB Nat
  | none => .error .uninitialised
  | some c => .ok c

/-- Write `db_name[i] = c`: a write outside the array is undefined. -/
def store (a : List Nat) (i : Nat) (c : Nat) : Except UB (List Nat) :=
  if i < a.length then .ok (a.set i c) else .error .out_of_bounds

/-- The array of a string literal: its characters and the terminating NUL. -/
def literal (s : List Nat) : List Cell :=
  s.map some ++ [some 0]

/-- The characters of the C string that starts a list of bytes: those before the first NUL. -/
def cstr (s : List Nat) : List Nat :=
  s.takeWhile (fun c => c ≠ 0)

/-- C `strlen` on the cells from the pointer to the end of its array. -/
def strlen : List Cell → Except UB Nat
  | [] => .error .out_of_bounds
  | c :: s => do
    let ch ← load c
    if ch = 0 then pure 0
    else do
      let n ← strlen s
      pure (n + 1)

/-- C `strncmp`: the difference at the first position where the strings differ within
the first `n` characters, `0` when there is none or both end before it. -/
def strncmp : List Cell → List Cell → Nat → Except UB Int
  | _, _, 0 => .ok 0
  | [], _, _ + 1 => .error .out_of_bounds
  | _ :: _, [], _ + 1 => .error .out_of_bounds
  | c1 :: s1, c2 :: s2, n + 1 => do
    let a ← load c1
    let b ← load c2
    if a ≠ b then pure ((a : Int) - (b : Int))
    else if a = 0 then pure 0
    else strncmp s1 s2 n

/-- C `strchr` for a character other than NUL: the offset of its first occurrence
from the pointer, `none` (NULL) when the string ends first. -/
def strchr : List Cell → Nat → Except UB (Option Nat)
  | [], _ => .error .out_of_bounds
  | c :: s, ch => do
    let a ← load c
    if a = ch then pure (some 0)
    else if a = 0 then pure none
    else do
      let r ← strchr s ch
      pure (r.map (fun k => k + 1))

/-- C `memset(a, c, n)` on an array of at least `n` cells. -/
def memset (a : List Nat) (c : Nat) (n : Nat) : List Nat :=
  List.replicate n c ++ a.drop n

/-- The bytes one `fgets` takes from the unread part of a stream when `k` characters fit:
at most `k`, none after the first line feed. -/
def take_line : Nat → List Nat → List Nat
  | 0, _ => []
  | _ + 1, [] => []
  | k + 1, c :: cs => if c = 10 then [c] else c :: take_line k cs

/-- C `fgets(s, n, stream)` with `n` the size of `s`: NULL (and `s` untouched) at end of
file, else at most `n - 1` bytes up to and including the first line feed are stored in
`s`, followed by a NUL; the cells behind it keep what they held. -/
def fgets (s : List Cell) (n : Nat) (stream : FILE) : Option (List Cell) × FILE :=
  let rest := stream.content.drop stream.pos
  if n = 0 ∨ rest = [] then (none, stream)
  else
    let got := take_line (n - 1) rest
    (some (got.map some ++ some 0 :: s.drop (got.length + 1)),
      { stream with pos := stream.pos + got.length })

/-- C `fseeko(stream, offset, whence)` on a regular file; `whence` 0 is `SEEK_SET`,
1 is `SEEK_CUR`, 2 is `SEEK_END`. -/
def fseeko (stream : FILE) (offset : Nat) (whence : Nat) : FILE :=
  if whence = 0 then { stream with pos := offset }
  else if whence = 1 then { stream with pos := stream.pos + offset }
  else { stream with pos := stream.content.length + offset }

/-- `TSTRLEN` (`strlen` / `wcslen`) of a path given by the characters at the pointer. -/
def TSTRLEN (s : List Nat) : Nat :=
  (cstr s).length

/-- `TSTRNCPY` (`strncpy` / `wcsncpy`): exactly `n` cells of `dst` are written, the
characters of `src` and then NULs when `src` is shorter than `n`. -/
def TSTRNCPY (dst : List Nat) (src : List Nat) (n : Nat) : List Nat :=
  (cstr src ++ List.replicate (n - (cstr src).length) 0).take n ++ dst.drop n

/-- `TSNPRINTF(buf, n, "%s", s)`: the string left in `buf`, which is `s` cut to
`n - 1` characters. -/
def TSNPRINTF (n : Nat) (s : List Nat) : List Nat :=
  (cstr s).take (n - 1)

/-! ## `idxonly_name` (lines 24-63) -/

/-- The copy loop of lines 58-62,
`while (bufptr[i] != CR && bufptr[i] != LF && i < strlen(bufptr))`, with the cells from
`bufptr + i` on as second argument. `strlen(bufptr)` is evaluated only when the two
character tests pass, as `&&` does. -/
def name_loop (bufptr : List Cell) : List Cell → Nat → List Nat → Except UB (List Nat)
  | [], _, _ => .error .out_of_bounds
  | c :: rest, i, db_name => do
    let ch ← load c
    if ch ≠ 13 ∧ ch ≠ 10 then do
      let n ← strlen bufptr
      if i < n then do
        let db_name ← store db_name i ch
        name_loop bufptr rest (i + 1) db_name
      else pure db_name
    else pure db_name

/-- The two fall-back exits (lines 36-40 and 50-54): an optional diagnostic on stderr,
then the name is derived from the path. -/
def name_fallback (E : Env) (msg : String) (hdb_info : TSK_TEXT_HDB_INFO) (log : List Call) :
    TSK_TEXT_HDB_INFO × List Call :=
  let log := if E.tsk_verbose ≠ 0 then log ++ [Call.fprintf_stderr msg] else log
  (E.tsk_hdb_name_from_path hdb_info, log ++ [Call.tsk_hdb_name_from_path hdb_info])

/-- Lines 44-46: rewind the index stream and read twice into `buf`; `none` when one of
the two reads returns NULL. -/
def read_header (n : Nat) (buf : List Cell) (hFile : FILE) : Option (List Cell) × FILE :=
  let hFile := fseeko hFile 0 0
  match fgets buf n hFile with
  | (none, hFile) => (none, hFile)
  | (some buf, hFile) => fgets buf n hFile

/-- Lines 47-62, once both reads succeeded: the marker test, and either `none`
(fall back to the path) or the new `db_name`. -/
def parse_header (E : Env) (buf : List Cell) (db_name : List Nat) :
    Except UB (Option (List Nat)) := do
  let m ← strlen (literal E.TSK_HDB_IDX_HEAD_NAME_STR)
  let c ← strncmp buf (literal E.TSK_HDB_IDX_HEAD_NAME_STR) m
  if c ≠ 0 then pure none
  else
    match (← strchr buf 124) with
    | none => .error .null_deref
    | some p => do
      let bufptr := buf.drop (p + 1)
      let db_name ← name_loop bufptr bufptr 0 db_name
      pure (some db_name)

/-- Line 33: the descriptor once `db_name` is cleared, as `tsk_hdb_idxsetup` receives it. -/
def cleared (E : Env) (hdb_info : TSK_TEXT_HDB_INFO) : TSK_TEXT_HDB_INFO :=
  { hdb_info with idx := { hdb_info.idx with
      db_name := memset hdb_info.idx.db_name 0 E.TSK_HDB_NAME_MAXLEN } }

/-- The function `idxonly_name`. -/
def idxonly_name (E : Env) (hdb_info : TSK_TEXT_HDB_INFO) (log : List Call) :
    Except UB (TSK_TEXT_HDB_INFO × List Call) :=
  let buf : List Cell := List.replicate E.TSK_HDB_NAME_MAXLEN none
  let r := E.tsk_hdb_idxsetup (cleared E hdb_info) E.TSK_HDB_HTYPE_MD5_ID
  let log := log ++ [Call.tsk_hdb_idxsetup (cleared E hdb_info) E.TSK_HDB_HTYPE_MD5_ID]
  if r.1 = 0 then
    .ok (name_fallback E
      "Failed to get name from index (index does not exist); using file name instead"
      r.2 log)
  else
    match read_header E.TSK_HDB_NAME_MAXLEN buf r.2.idx.hIdx with
    | (none, hFile) =>
      .ok (name_fallback E "Failed to read name from index; using file name instead"
        { r.2 with idx := { r.2.idx with hIdx := hFile } } log)
    | (some buf, hFile) => do
      let opened : TSK_TEXT_HDB_INFO := { r.2 with idx := { r.2.idx with hIdx := hFile } }
      match (← parse_header E buf opened.idx.db_name) with
      | none =>
        pure (name_fallback E "Failed to read name from index; using file name instead"
          opened log)
      | some db_name =>
        pure ({ opened with idx := { opened.idx with db_name := db_name } }, log)

/-! ## `idxonly_makeindex` (lines 73-92) -/

/-- The function `idxonly_makeindex`: status, descriptor and log. -/
def idxonly_makeindex (E : Env) (hdb_info : TSK_TEXT_HDB_INFO) (dbtype : Option (List Nat))
    (log : List Call) : Nat × TSK_TEXT_HDB_INFO × List Call :=
  let dbtype_default := TSNPRINTF 1024 E.TSK_HDB_DBTYPE_MD5SUM_STR
  let r := E.tsk_hdb_idxinitialize hdb_info dbtype_default
  let log := log ++ [ Call.tsk_hdb_idxinitialize hdb_info dbtype_default]
  if r.1 ≠ 0 then (1, r.2, log ++ [Call.tsk_error_set_errstr2 "idxonly_makeindex"])
  else (0, r.2, log)

/-! ## `idxonly_getentry` (lines 108-118) -/

/-- The function `idxonly_getentry`: status and log (the descriptor is not written). -/
def idxonly_getentry (E : Env) (hdb_info : TSK_TEXT_HDB_INFO) (hash : List Nat)
    (offset : Int) (flags : Nat) (action : Option TSK_HDB_LOOKUP_FN) (cb_ptr : Nat)
    (log : List Call) : Nat × List Call :=
  (1, log ++ [Call.tsk_error_reset, Call.tsk_error_set_errno E.TSK_ERR_HDB_ARG,
    Call.tsk_error_set_errstr "idxonly_getentry: Not supported when INDEX ONLY option is used"])

/-! ## `idxonly_open` (lines 120-154) -/

/-- The function `idxonly_open` on a non-null path (line 125 asserts it). The two
`tsk_malloc` calls are given by their outcome: `desc_mem` is the block for the descriptor
with what it holds (NULL when `none`), `fname_mem flen` the block of `flen` characters for
the path. `flen` is a `size_t`: a path is a string in memory, so its length plus 8 does
not wrap. On the second failure the function returns NULL without freeing the descriptor
block. -/
def idxonly_open (E : Env) (idx_path : List Nat) (desc_mem : Option TSK_TEXT_HDB_INFO)
    (fname_mem : Nat → Option (List Nat)) (log : List Call) :
    Option TSK_TEXT_HDB_INFO × List Call :=
  match desc_mem with
  | none => (none, log)
  | some text_hdb_info =>
    let flen := TSTRLEN idx_path + 8
    match fname_mem flen with
    | none => (none, log)
    | some block =>
      (some
        { text_hdb_info with
          base := { text_hdb_info.base with
            idx_fname := some (TSTRNCPY block idx_path flen)
            db_type := E.TSK_HDB_DBTYPE_IDXONLY_ID
            updateable := 0
            uses_external_index := 1
            hash_type := E.TSK_HDB_HTYPE_INVALID_ID
            hash_len := 0
            makeindex := some HdbFn.idxonly_makeindex
            add_comment := none
            add_filename := none }
          getentry := some HdbFn.idxonly_getentry },
        log ++ [Call.tsk_init_lock])

/-! ## Sequences of operations on one descriptor -/

/-- One call of an operation of this file on a descriptor, with its other arguments. -/
inductive Op where
  | name
  | makeindex (dbtype : Option (List Nat))
  | getentry (hash : List Nat) (offset : Int) (flags : Nat)
      (action : Option TSK_HDB_LOOKUP_FN) (cb_ptr : Nat)

/-- Run one operation. -/
def step (E : Env) (op : Op) (s : TSK_TEXT_HDB_INFO × List Call) :
    Except UB (TSK_TEXT_HDB_INFO × List Call) :=
  match op with
  | Op.name => idxonly_name E s.1 s.2
  | Op.makeindex dbtype => .ok (idxonly_makeindex E s.1 dbtype s.2).2
  | Op.getentry hash offset flags action cb_ptr =>
    .ok (s.1, (idxonly_getentry E s.1 hash offset flags action cb_ptr s.2).2)

/-- Run a sequence of operations, stopping at undefined behaviour. -/
def run (E : Env) : List Op → TSK_TEXT_HDB_INFO × List Call →
    Except UB (TSK_TEXT_HDB_INFO × List Call)
  | [], s => .ok s
  | op :: ops, s =>
    match step E op s with
    | .error e => .error e
    | .ok s1 => run E ops s1



/-! ## What the two reads of `idxonly_name` take from a file -/

/-- The bytes the first `fgets` of `idxonly_name` takes from a file of this content,
with a line buffer of `n` characters. -/
def first_read (n : Nat) (file : List Nat) : List Nat :=
  take_line (n - 1) file

/-- The bytes the second `fgets` of `idxonly_name` takes: it goes on where the first
stopped. -/
def second_read (n : Nat) (file : List Nat) : List Nat :=
  take_line (n - 1) (file.drop (first_read n file).length)

/-- The characters `name_loop` copies from a string: those before the first CR or LF. -/
def until_eol (t : List Nat) : List Nat :=
  t.takeWhile (fun c => c ≠ 13 ∧ c ≠ 10)

/-- Line 35: the status and the descriptor `tsk_hdb_idxsetup` hands back to
`idxonly_name`. -/
def setup_result (E : Env) (hdb_info : TSK_TEXT_HDB_INFO) : Nat × TSK_TEXT_HDB_INFO :=
  E.tsk_hdb_idxsetup (cleared E hdb_info) E.TSK_HDB_HTYPE_MD5_ID

/-- The bytes of the index file: the content of the stream `hIdx` after line 35. -/
def index_file (E : Env) (hdb_info : TSK_TEXT_HDB_INFO) : List Nat :=
  (setup_result E hdb_info).2.idx.hIdx.content

/-- The log of `idxonly_name` after line 35. -/
def setup_log (E : Env) (hdb_info : TSK_TEXT_HDB_INFO) (log : List Call) : List Call :=
  log ++ [Call.tsk_hdb_idxsetup (cleared E hdb_info) E.TSK_HDB_HTYPE_MD5_ID]

/-- The C string at the start of an array of cells: the characters before the first NUL. -/
def string_of : List Cell → List Nat
  | some c :: s => if c = 0 then [] else c :: string_of s
  | _ => []

/-- The text `idxonly_name` compares with the marker and scans for the name: the string
in `buf` after lines 44-46, `none` when one of the reads returned NULL. -/
def header_text (n : Nat) (hFile : FILE) : Option (List Nat) :=
  (read_header n (List.replicate n none) hFile).1.map string_of

/-- The second line of a file as the specification words it: the bytes between the first
and the second line feed. -/
def second_line (file : List Nat) : List Nat :=
  ((file.dropWhile (fun c => c ≠ 10)).drop 1).takeWhile (fun c => c ≠ 10)

/-- The fields the descriptor invariant is about: `updateable`, `uses_external_index`
and the `getentry` slot. -/
def flags_of (d : TSK_TEXT_HDB_INFO) : Nat × Nat × Option HdbFn :=
  (d.base.updateable, d.base.uses_external_index, d.getentry)

/-- A file has fewer than two lines, as the specification counts lines: nothing follows
its first line feed, if it has one. -/
def fewer_than_two_lines (file : List Nat) : Bool :=
  ((file.dropWhile (fun c => c ≠ 10)).drop 1).isEmpty

/-- The calls logged by a run of `idxonly_name`, none when the run does not return. -/
def log_after (r : Except UB (TSK_TEXT_HDB_INFO × List Call)) : List Call :=
  match r with
  | .ok s => s.2
  | .error _ => []

/-- Whether a logged call is a call of `tsk_hdb_name_from_path`. -/
def is_name_from_path : Call → Bool
  | Call.tsk_hdb_name_from_path _ => true
  | _ => false

/-! ## Concrete inputs used by the examples -/

/-- An environment with the constants of the upstream headers, an index service that
reports `status` and leaves the stream on `file` open at position `pos`, a path-derived
name `nsrl`, and an index initialisation that reports `init_status`. -/
def sample_env (status : Nat) (file : List Nat) (pos : Nat) (init_status : Nat) : Env :=
  { TSK_HDB_NAME_MAXLEN := 512
    TSK_HDB_IDX_HEAD_NAME_STR := List.replicate 40 48 ++ [49]
    TSK_HDB_DBTYPE_MD5SUM_STR := [109, 100, 53, 115, 117, 109]
    TSK_HDB_HTYPE_MD5_ID := 1
    TSK_HDB_HTYPE_INVALID_ID := 0
    TSK_HDB_DBTYPE_IDXONLY_ID := 4
    TSK_ERR_HDB_ARG := 100663300
    tsk_verbose := 0
    tsk_hdb_idxsetup := fun d _ => (status, { d with idx := { d.idx with hIdx := ⟨file, pos⟩ } })
    tsk_hdb_name_from_path := fun d =>
      { d with idx := { d.idx with db_name := [110, 115, 114, 108] ++ d.idx.db_name.drop 4 } }
    tsk_hdb_idxinitialize := fun d _ => (init_status, d) }

/-- A descriptor block as an allocator may hand it out, with old contents in its fields. -/
def sample_block : TSK_TEXT_HDB_INFO :=
  { base :=
      { idx_fname := none, db_type := 0, updateable := 7, uses_external_index := 0,
        hash_type := 9, hash_len := 16, makeindex := none, add_comment := some (HdbFn.other 1),
        add_filename := some (HdbFn.other 2) }
    getentry := none
    idx := { db_name := List.replicate 512 255, hIdx := ⟨[], 0⟩ } }


/-- The descriptor `idxonly_open` builds for the path `a.idx` in `sample_block`. -/
def sample_opened : TSK_TEXT_HDB_INFO :=
  { base :=
      { idx_fname := some ([97, 46, 105, 100, 120] ++ List.replicate 8 0), db_type := 4,
        updateable := 0, uses_external_index := 1, hash_type := 0, hash_len := 0,
        makeindex := some HdbFn.idxonly_makeindex, add_comment := none, add_filename := none }
    getentry := some HdbFn.idxonly_getentry
    idx := { db_name := List.replicate 512 255, hIdx := ⟨[], 0⟩ } }

/-- The marker line of the sample environment with `name` after the delimiter. -/
def sample_line (name : List Nat) : List Nat :=
  List.replicate 40 48 ++ [49] ++ [124] ++ name

/-- An index file: a first line `T`, then the marker line with the name `Foo Bar`. -/
def header_file : List Nat :=
  [84, 10] ++ sample_line [70, 111, 111, 32, 66, 97, 114] ++ [10]

/-- An index file whose second line is the marker and `A`, with no delimiter. -/
def no_delimiter_file : List Nat :=
  [84, 10] ++ (List.replicate 40 48 ++ [49]) ++ [65, 10]

/-- An index file whose first line is 511 times `A` and then a marker line naming `e`
(554 bytes before its line feed), and whose second line is the marker line naming `g`. -/
def long_first_line_file : List Nat :=
  List.replicate 511 65 ++ sample_line [101] ++ [10] ++ sample_line [103] ++ [10]

/-- An index file whose second line is longer than the line buffer: the marker, the
delimiter and 600 times `B`. -/
def long_second_line_file : List Nat :=
  [84, 10] ++ sample_line (List.replicate 600 66) ++ [10]

/-- An index file of one line only: 511 times `A`, then the marker line naming `e` and
its line feed. -/
def one_line_file : List Nat :=
  List.replicate 511 65 ++ sample_line [101] ++ [10]

/-- An index file whose second line, `no|x`, does not begin with the marker. -/
def no_marker_file : List Nat :=
  [84, 10] ++ [110, 111, 124, 120, 10]

/-- The `db_name` a run of `idxonly_name` leaves, empty when the run does not return. -/
def db_name_after (r : Except UB (TSK_TEXT_HDB_INFO × List Call)) : List Nat :=
  match r with
  | .ok s => s.1.idx.db_name
  | .error _ => []

/-- A sequence of operations: name, index creation with a caller tag, lookup, name. -/
def sample_ops : List Op :=
  [Op.name, Op.makeindex (some [110, 115, 114, 108]), Op.getentry [97, 98] 16 0 none 0, Op.name]


/-! ## Lemmas on C strings -/

theorem cstr_eq_self_of_no_nul (s : List Nat) (h : 0 ∉ s) : cstr s = s := by
  unfold cstr
  rw [List.takeWhile_eq_self_iff]
  intro x hx
  have : x ≠ 0 := fun h0 => h (h0 ▸ hx)
  simpa using this

theorem cstr_append_nul (s t : List Nat) (h : 0 ∉ s) : cstr (s ++ 0 :: t) = s := by
  induction s with
  | nil => simp [cstr]
  | cons a s ih =>
    have ha : a ≠ 0 := fun h1 => h (by simp [h1])
    have hs : 0 ∉ s := fun h1 => h (by simp [h1])
    have := ih hs
    simp only [cstr, decide_not] at this ⊢
    simp [List.takeWhile_cons, ha, this]

theorem nul_not_mem_cstr (s : List Nat) : 0 ∉ cstr s := by
  unfold cstr
  intro h
  have := List.mem_takeWhile_imp h
  simp at this

/-- Cells holding bytes and then a NUL hold the C string of those bytes and then a NUL. -/
theorem cells_cstr (chunk : List Nat) (g : List Cell) :
    ∃ g2, chunk.map some ++ some 0 :: g = (cstr chunk).map some ++ some 0 :: g2 := by
  induction chunk with
  | nil => exact ⟨g, by simp [cstr]⟩
  | cons c cs ih =>
    by_cases hc : c = 0
    · subst hc
      exact ⟨cs.map some ++ some 0 :: g, by simp [cstr]⟩
    · obtain ⟨g2, hg2⟩ := ih
      refine ⟨g2, ?_⟩
      simp only [cstr, decide_not] at hg2 ⊢
      simp [List.takeWhile_cons, hc, hg2]

theorem literal_cstr (s : List Nat) :
    ∃ g2, literal s = (cstr s).map some ++ some 0 :: g2 := by
  unfold literal
  exact cells_cstr s []

theorem strlen_cells (s : List Nat) (g : List Cell) (h : 0 ∉ s) :
    strlen (s.map some ++ some 0 :: g) = .ok s.length := by
  induction s with
  | nil => simp [strlen, load, bind, Except.bind, pure, Except.pure]
  | cons a s ih =>
    have ha : a ≠ 0 := fun h1 => h (by simp [h1])
    have hs : 0 ∉ s := fun h1 => h (by simp [h1])
    simp [strlen, load, bind, Except.bind, pure, Except.pure, ha, ih hs]

theorem strncmp_cells (m : List Nat) : ∀ (s : List Nat) (g g2 : List Cell),
    0 ∉ m → 0 ∉ s →
    ∃ v, strncmp (s.map some ++ some 0 :: g) (m.map some ++ some 0 :: g2) m.length = .ok v ∧
      (v = 0 ↔ m <+: s) := by
  induction m with
  | nil =>
    intro s g g2 _ _
    exact ⟨0, by simp [strncmp], by simp⟩
  | cons b m ih =>
    intro s g g2 hm hs
    have hb : b ≠ 0 := fun h1 => hm (by simp [h1])
    have hm2 : 0 ∉ m := fun h1 => hm (by simp [h1])
    cases s with
    | nil =>
      refine ⟨(0 : Int) - (b : Int), ?_, ?_⟩
      · simp [strncmp, load, bind, Except.bind, pure, Except.pure, Ne.symm hb]
      · simp [hb]
    | cons a s =>
      have ha : a ≠ 0 := fun h1 => hs (by simp [h1])
      have hs2 : 0 ∉ s := fun h1 => hs (by simp [h1])
      by_cases hab : a = b
      · subst hab
        obtain ⟨v, hv, hiff⟩ := ih s g g2 hm2 hs2
        refine ⟨v, ?_, ?_⟩
        · simp [strncmp, load, bind, Except.bind, pure, Except.pure, ha, hv]
        · rw [hiff]
          simp [List.cons_prefix_cons]
      · refine ⟨(a : Int) - (b : Int), ?_, ?_⟩
        · simp [strncmp, load, bind, Except.bind, pure, Except.pure, hab]
        · have h1 : (a : Int) - (b : Int) ≠ 0 := by omega
          simp only [h1, List.cons_prefix_cons, false_iff, not_and]
          intro h2
          exact absurd h2.symm hab

theorem strchr_absent (ch : Nat) (hch : ch ≠ 0) (s : List Nat) (g : List Cell)
    (h0 : 0 ∉ s) (hs : ch ∉ s) :
    strchr (s.map some ++ some 0 :: g) ch = .ok none := by
  induction s with
  | nil => simp [strchr, load, bind, Except.bind, pure, Except.pure, Ne.symm hch]
  | cons a s ih =>
    have ha : a ≠ 0 := fun h1 => h0 (by simp [h1])
    have hs0 : 0 ∉ s := fun h1 => h0 (by simp [h1])
    have hac : a ≠ ch := fun h1 => hs (by simp [h1])
    have hs2 : ch ∉ s := fun h1 => hs (by simp [h1])
    simp [strchr, load, bind, Except.bind, pure, Except.pure, ha, hac, ih hs0 hs2]

theorem strchr_found (ch : Nat) (a t : List Nat) (g : List Cell)
    (h0 : 0 ∉ a) (ha : ch ∉ a) :
    strchr ((a ++ ch :: t).map some ++ some 0 :: g) ch = .ok (some a.length) := by
  induction a with
  | nil => simp [strchr, load, bind, Except.bind, pure, Except.pure]
  | cons x a ih =>
    have hx : x ≠ 0 := fun h1 => h0 (by simp [h1])
    have hs0 : 0 ∉ a := fun h1 => h0 (by simp [h1])
    have hxc : x ≠ ch := fun h1 => ha (by simp [h1])
    have hs2 : ch ∉ a := fun h1 => ha (by simp [h1])
    have := ih hs0 hs2
    simp only [List.map_append, List.map_cons, List.append_assoc, List.cons_append] at this
    simp [strchr, load, bind, Except.bind, pure, Except.pure, hx, hxc, this]

/-- A list splits at the first occurrence of a member. -/
theorem split_at_first (ch : Nat) (s : List Nat) (h : ch ∈ s) :
    ∃ a t, s = a ++ ch :: t ∧ ch ∉ a := by
  induction s with
  | nil => simp at h
  | cons x s ih =>
    by_cases hx : x = ch
    · exact ⟨[], s, by simp [hx], by simp⟩
    · have hs : ch ∈ s := by
        rcases List.mem_cons.mp h with h1 | h1
        · exact absurd h1.symm hx
        · exact h1
      obtain ⟨a, t, hat, hna⟩ := ih hs
      refine ⟨x :: a, t, by simp [hat], ?_⟩
      intro hmem
      rcases List.mem_cons.mp hmem with h1 | h1
      · exact hx h1.symm
      · exact hna h1

/-! ## Lemmas on the reads -/

theorem take_line_length_le (k : Nat) : ∀ l : List Nat, (take_line k l).length ≤ k := by
  induction k with
  | zero => intro l; simp [take_line]
  | succ k ih =>
    intro l
    cases l with
    | nil => simp [take_line]
    | cons c cs =>
      by_cases hc : c = 10
      · simp [take_line, hc]
      · have := ih cs
        simp [take_line, hc]
        omega

theorem take_line_whole (k : Nat) : ∀ l : List Nat, 10 ∉ l → l.length ≤ k →
    take_line k l = l := by
  induction k with
  | zero =>
    intro l _ hl
    have : l = [] := List.length_eq_zero.mp (by omega)
    simp [this, take_line]
  | succ k ih =>
    intro l h10 hl
    cases l with
    | nil => simp [take_line]
    | cons c cs =>
      have hc : c ≠ 10 := fun h1 => h10 (by simp [h1])
      have hcs : 10 ∉ cs := fun h1 => h10 (by simp [h1])
      have hlen : cs.length ≤ k := by simp at hl; omega
      simp [take_line, hc, ih cs hcs hlen]

theorem take_line_to_lf (k : Nat) : ∀ l r : List Nat, 10 ∉ l → l.length + 1 ≤ k →
    take_line k (l ++ 10 :: r) = l ++ [10] := by
  induction k with
  | zero => intro l r _ hl; omega
  | succ k ih =>
    intro l r h10 hl
    cases l with
    | nil => simp [take_line]
    | cons c cs =>
      have hc : c ≠ 10 := fun h1 => h10 (by simp [h1])
      have hcs : 10 ∉ cs := fun h1 => h10 (by simp [h1])
      have hlen : cs.length + 1 ≤ k := by simp at hl; omega
      simp [take_line, hc, ih cs r hcs hlen]

/-- The two reads in terms of the file: NULL when the file is empty or the first read
takes all of it; else the buffer holds the bytes of the second read and a NUL. -/
theorem read_header_eq (n : Nat) (buf : List Cell) (f : FILE) (hn : n ≠ 0) :
    (f.content = [] → (read_header n buf f).1 = none) ∧
    (f.content ≠ [] → f.content.drop (first_read n f.content).length = [] →
      (read_header n buf f).1 = none) ∧
    (f.content ≠ [] → f.content.drop (first_read n f.content).length ≠ [] →
      ∃ g, (read_header n buf f).1 =
        some ((second_read n f.content).map some ++ some 0 :: g)) ∧
    (read_header n buf f).2.content = f.content := by
  unfold read_header fseeko fgets first_read second_read
  by_cases h1 : f.content = []
  · simp [h1, hn]
  · by_cases h2 : f.content.drop (take_line (n - 1) f.content).length = []
    · simp [h1, h2, hn]
    · simp [h1, h2, hn]
      exact ⟨_, rfl⟩

/-- The reads fail only as `read_header_eq` says. -/
theorem read_header_some (n : Nat) (buf0 buf : List Cell) (f hFile : FILE)
    (h : read_header n buf0 f = (some buf, hFile)) :
    n ≠ 0 ∧ f.content ≠ [] ∧ f.content.drop (first_read n f.content).length ≠ [] ∧
    (∃ g, buf = (second_read n f.content).map some ++ some 0 :: g) ∧
    hFile.content = f.content := by
  have hn : n ≠ 0 := by
    intro h0
    subst h0
    simp [read_header, fgets] at h
  obtain ⟨e1, e2, e3, e4⟩ := read_header_eq n buf0 f hn
  rw [h] at e1 e2 e3 e4
  have h1 : f.content ≠ [] := fun h0 => by simpa using e1 h0
  have h2 : f.content.drop (first_read n f.content).length ≠ [] :=
    fun h0 => by simpa using e2 h1 h0
  obtain ⟨g, hg⟩ := e3 h1 h2
  exact ⟨hn, h1, h2, ⟨g, by simpa using hg⟩, e4⟩

/-! ## Lemmas on the copy loop and the header line -/

theorem set_take_succ (c : Nat) : ∀ (db : List Nat) (i : Nat), i < db.length →
    (db.set i c).take (i + 1) = db.take i ++ [c] := by
  intro db
  induction db with
  | nil => intro i h; simp at h
  | cons x db ih =>
    intro i h
    cases i with
    | zero => simp
    | succ i =>
      have hi : i < db.length := by simp at h; omega
      simp [ih i hi]

theorem set_drop_succ (c : Nat) : ∀ (db : List Nat) (i k : Nat),
    (db.set i c).drop (i + 1 + k) = db.drop (i + 1 + k) := by
  intro db
  induction db with
  | nil => intro i k; simp
  | cons x db ih =>
    intro i k
    cases i with
    | zero =>
      have : 0 + 1 + k = k + 1 := by omega
      rw [this]
      simp
    | succ i =>
      have : i + 1 + 1 + k = (i + 1 + k) + 1 := by omega
      rw [this]
      simp [ih i k]

theorem until_eol_no_eol (t : List Nat) : 13 ∉ until_eol t ∧ 10 ∉ until_eol t := by
  unfold until_eol
  constructor
  · intro h
    have := List.mem_takeWhile_imp h
    simp at this
  · intro h
    have := List.mem_takeWhile_imp h
    simp at this

theorem until_eol_length_le (t : List Nat) : (until_eol t).length ≤ t.length := by
  unfold until_eol
  exact (List.takeWhile_sublist _).length_le

theorem until_eol_subset (t : List Nat) (x : Nat) (h : x ∈ until_eol t) : x ∈ t := by
  unfold until_eol at h
  exact (List.takeWhile_sublist _).subset h

/-- The copy loop on a buffer that holds the string `t` from `bufptr` on: the characters
of `t` before the first CR or LF are stored from index `pre.length` on, and no access
leaves an array when `db_name` has room for them. -/
theorem name_loop_cells (t : List Nat) (g : List Cell) (h0 : 0 ∉ t) :
    ∀ (u pre db : List Nat), t = pre ++ u →
      pre.length + (until_eol u).length ≤ db.length →
      name_loop (t.map some ++ some 0 :: g) (u.map some ++ some 0 :: g) pre.length db =
        .ok (db.take pre.length ++ until_eol u ++
          db.drop (pre.length + (until_eol u).length)) := by
  intro u
  induction u with
  | nil =>
    intro pre db ht _
    have hlen : t.length = pre.length := by rw [ht]; simp
    simp [name_loop, load, bind, Except.bind, pure, Except.pure, strlen_cells t g h0, hlen,
      until_eol]
  | cons c u ih =>
    intro pre db ht hroom
    have hc0 : c ≠ 0 := by
      intro h1
      apply h0
      rw [ht, h1]
      simp
    have hlen : pre.length < t.length := by rw [ht]; simp
    by_cases heol : c = 13 ∨ c = 10
    · have hu : until_eol (c :: u) = [] := by
        unfold until_eol
        rcases heol with h1 | h1 <;> simp [h1]
      rw [hu]
      rcases heol with h1 | h1 <;>
        simp [name_loop, load, bind, Except.bind, pure, Except.pure, h1]
    · have h13 : c ≠ 13 := fun h1 => heol (Or.inl h1)
      have h10 : c ≠ 10 := fun h1 => heol (Or.inr h1)
      have hu : until_eol (c :: u) = c :: until_eol u := by
        unfold until_eol
        simp [List.takeWhile_cons, h13, h10]
      rw [hu] at hroom ⊢
      simp only [List.length_cons] at hroom
      have hroom1 : pre.length < db.length := by omega
      have ht2 : t = (pre ++ [c]) ++ u := by rw [ht]; simp
      have hroom2 : (pre ++ [c]).length + (until_eol u).length ≤ (db.set pre.length c).length := by
        simp
        omega
      have hrec := ih (pre ++ [c]) (db.set pre.length c) ht2 hroom2
      simp only [List.length_append, List.length_singleton] at hrec
      simp only [List.map_cons, List.cons_append, name_loop, load, bind, Except.bind, pure,
        Except.pure, strlen_cells t g h0, store]
      simp only [h13, h10, ne_eq, not_false_eq_true, and_self, if_true, hlen, hroom1]
      simp only [List.append_eq]
      rw [hrec, set_take_succ c db pre.length hroom1, set_drop_succ]
      have : pre.length + ((until_eol u).length + 1) = pre.length + 1 + (until_eol u).length := by
        omega
      simp [this]

/-- Lines 47-62 on a buffer that holds the bytes `chunk` of the second read and a NUL. -/
theorem parse_header_cells (E : Env) (chunk : List Nat) (g : List Cell) (db : List Nat) :
    (¬ cstr E.TSK_HDB_IDX_HEAD_NAME_STR <+: cstr chunk →
      parse_header E (chunk.map some ++ some 0 :: g) db = .ok none) ∧
    (cstr E.TSK_HDB_IDX_HEAD_NAME_STR <+: cstr chunk → 124 ∉ cstr chunk →
      parse_header E (chunk.map some ++ some 0 :: g) db = .error .null_deref) ∧
    (cstr E.TSK_HDB_IDX_HEAD_NAME_STR <+: cstr chunk →
      ∀ a t, cstr chunk = a ++ 124 :: t → 124 ∉ a → (until_eol t).length ≤ db.length →
      parse_header E (chunk.map some ++ some 0 :: g) db =
        .ok (some (until_eol t ++ db.drop (until_eol t).length))) := by
  obtain ⟨g1, hg1⟩ := cells_cstr chunk g
  obtain ⟨g2, hg2⟩ := literal_cstr E.TSK_HDB_IDX_HEAD_NAME_STR
  have hm0 := nul_not_mem_cstr E.TSK_HDB_IDX_HEAD_NAME_STR
  have hs0 := nul_not_mem_cstr chunk
  obtain ⟨v, hv, hiff⟩ := strncmp_cells (cstr E.TSK_HDB_IDX_HEAD_NAME_STR) (cstr chunk) g1 g2
    hm0 hs0
  have hl := strlen_cells (cstr E.TSK_HDB_IDX_HEAD_NAME_STR) g2 hm0
  unfold parse_header
  rw [hg1, hg2]
  simp only [bind, Except.bind, hl, hv]
  refine ⟨?_, ?_, ?_⟩
  · intro hp
    have hv0 : v ≠ 0 := fun h => hp (hiff.mp h)
    simp [hv0, pure, Except.pure]
  · intro hp hbar
    have hv0 : v = 0 := hiff.mpr hp
    simp [hv0, strchr_absent 124 (by decide) (cstr chunk) g1 hs0 hbar]
  · intro hp a t hat hna hroom
    have hv0 : v = 0 := hiff.mpr hp
    have ha0 : 0 ∉ a := fun h => hs0 (by rw [hat]; simp [h])
    have ht0 : 0 ∉ t := fun h => hs0 (by rw [hat]; simp [h])
    have hdrop : List.drop (a.length + 1) ((a ++ 124 :: t).map some ++ some 0 :: g1) =
        t.map some ++ some 0 :: g1 := by
      have e : (a ++ 124 :: t).map some ++ some 0 :: g1 =
          (a.map some ++ [some 124]) ++ (t.map some ++ some 0 :: g1) := by simp
      rw [e]
      exact List.drop_left' (by simp)
    have hloop := name_loop_cells t g1 ht0 t [] db (by simp) (by simpa using hroom)
    simp only [List.length_nil, List.take_zero, List.nil_append, Nat.zero_add] at hloop
    have hfound := strchr_found 124 a t g1 ha0 hna
    rw [hat]
    simp only [List.map_append, List.map_cons, List.append_assoc, List.cons_append]
      at hfound hdrop ⊢
    simp [hv0, hfound, hdrop, hloop, pure, Except.pure]

/-! ## `idxonly_name` -/

theorem read_header_content (n : Nat) (buf : List Cell) (f : FILE) :
    (read_header n buf f).2.content = f.content := by
  unfold read_header fseeko fgets
  by_cases hn : n = 0
  · simp [hn]
  · by_cases h1 : f.content = []
    · simp [h1, hn]
    · by_cases h2 : f.content.drop (take_line (n - 1) f.content).length = []
      · simp [h1, h2, hn]
      · simp [h1, h2, hn]

theorem idxonly_name_setup_failed (E : Env) (hdb_info : TSK_TEXT_HDB_INFO) (log : List Call)
    (h : (E.tsk_hdb_idxsetup (cleared E hdb_info) E.TSK_HDB_HTYPE_MD5_ID).1 = 0) :
    idxonly_name E hdb_info log = .ok (name_fallback E
      "Failed to get name from index (index does not exist); using file name instead"
      (E.tsk_hdb_idxsetup (cleared E hdb_info) E.TSK_HDB_HTYPE_MD5_ID).2
      (log ++ [Call.tsk_hdb_idxsetup (cleared E hdb_info) E.TSK_HDB_HTYPE_MD5_ID])) := by
  unfold idxonly_name
  simp [h]

theorem idxonly_name_read_failed (E : Env) (hdb_info : TSK_TEXT_HDB_INFO) (log : List Call)
    (hFile : FILE)
    (h : (E.tsk_hdb_idxsetup (cleared E hdb_info) E.TSK_HDB_HTYPE_MD5_ID).1 ≠ 0)
    (hread : read_header E.TSK_HDB_NAME_MAXLEN (List.replicate E.TSK_HDB_NAME_MAXLEN none)
      (E.tsk_hdb_idxsetup (cleared E hdb_info) E.TSK_HDB_HTYPE_MD5_ID).2.idx.hIdx
        = (none, hFile)) :
    idxonly_name E hdb_info log = .ok (name_fallback E
      "Failed to read name from index; using file name instead"
      { (E.tsk_hdb_idxsetup (cleared E hdb_info) E.TSK_HDB_HTYPE_MD5_ID).2 with
        idx := { (E.tsk_hdb_idxsetup (cleared E hdb_info) E.TSK_HDB_HTYPE_MD5_ID).2.idx with
          hIdx := hFile } }
      (log ++ [Call.tsk_hdb_idxsetup (cleared E hdb_info) E.TSK_HDB_HTYPE_MD5_ID])) := by
  unfold idxonly_name
  simp [h, hread]

theorem idxonly_name_read_ok (E : Env) (hdb_info : TSK_TEXT_HDB_INFO) (log : List Call)
    (buf : List Cell) (hFile : FILE)
    (h : (E.tsk_hdb_idxsetup (cleared E hdb_info) E.TSK_HDB_HTYPE_MD5_ID).1 ≠ 0)
    (hread : read_header E.TSK_HDB_NAME_MAXLEN (List.replicate E.TSK_HDB_NAME_MAXLEN none)
      (E.tsk_hdb_idxsetup (cleared E hdb_info) E.TSK_HDB_HTYPE_MD5_ID).2.idx.hIdx
        = (some buf, hFile)) :
    idxonly_name E hdb_info log =
      match parse_header E buf
        (E.tsk_hdb_idxsetup (cleared E hdb_info) E.TSK_HDB_HTYPE_MD5_ID).2.idx.db_name with
      | .error e => .error e
      | .ok none => .ok (name_fallback E
          "Failed to read name from index; using file name instead"
          { (E.tsk_hdb_idxsetup (cleared E hdb_info) E.TSK_HDB_HTYPE_MD5_ID).2 with
            idx := { (E.tsk_hdb_idxsetup (cleared E hdb_info) E.TSK_HDB_HTYPE_MD5_ID).2.idx with
              hIdx := hFile } }
          (log ++ [Call.tsk_hdb_idxsetup (cleared E hdb_info) E.TSK_HDB_HTYPE_MD5_ID]))
      | .ok (some db_name) => .ok (
          { (E.tsk_hdb_idxsetup (cleared E hdb_info) E.TSK_HDB_HTYPE_MD5_ID).2 with
            idx := { db_name := db_name, hIdx := hFile } },
          log ++ [Call.tsk_hdb_idxsetup (cleared E hdb_info) E.TSK_HDB_HTYPE_MD5_ID]) := by
  unfold idxonly_name
  simp only [h, hread, if_false, bind, Except.bind]
  cases parse_header E buf
      (E.tsk_hdb_idxsetup (cleared E hdb_info) E.TSK_HDB_HTYPE_MD5_ID).2.idx.db_name with
  | error e => rfl
  | ok o =>
    cases o with
    | none => rfl
    | some n => rfl

theorem name_fallback_eq (E : Env) (msg : String) (d : TSK_TEXT_HDB_INFO) (log : List Call) :
    ∃ diag, name_fallback E msg d log =
        (E.tsk_hdb_name_from_path d, log ++ diag ++ [Call.tsk_hdb_name_from_path d]) ∧
      (diag = [] ∨ diag = [Call.fprintf_stderr msg]) ∧ (E.tsk_verbose = 0 → diag = []) := by
  unfold name_fallback
  by_cases hv : E.tsk_verbose = 0
  · exact ⟨[], by simp [hv], Or.inl rfl, fun _ => rfl⟩
  · exact ⟨[Call.fprintf_stderr msg], by simp [hv], Or.inr rfl, fun h => absurd h hv⟩

/-- Once the index is open and both reads succeed, `idxonly_name` goes on with the bytes
of the second read in `buf`. -/
theorem idxonly_name_header (E : Env) (hdb_info : TSK_TEXT_HDB_INFO) (log : List Call)
    (hsetup : (setup_result E hdb_info).1 ≠ 0)
    (hn : E.TSK_HDB_NAME_MAXLEN ≠ 0)
    (h1 : index_file E hdb_info ≠ [])
    (h2 : (index_file E hdb_info).drop
      (first_read E.TSK_HDB_NAME_MAXLEN (index_file E hdb_info)).length ≠ []) :
    ∃ hFile g, hFile.content = index_file E hdb_info ∧
      idxonly_name E hdb_info log =
        match parse_header E
          ((second_read E.TSK_HDB_NAME_MAXLEN (index_file E hdb_info)).map some ++ some 0 :: g)
          (setup_result E hdb_info).2.idx.db_name with
        | .error e => .error e
        | .ok none => .ok (name_fallback E
            "Failed to read name from index; using file name instead"
            { (setup_result E hdb_info).2 with
              idx := { (setup_result E hdb_info).2.idx with hIdx := hFile } }
            (setup_log E hdb_info log))
        | .ok (some db_name) => .ok (
            { (setup_result E hdb_info).2 with idx := { db_name := db_name, hIdx := hFile } },
            setup_log E hdb_info log) := by
  obtain ⟨_, _, e3, e4⟩ := read_header_eq E.TSK_HDB_NAME_MAXLEN
    (List.replicate E.TSK_HDB_NAME_MAXLEN none) (setup_result E hdb_info).2.idx.hIdx hn
  obtain ⟨g, hg⟩ := e3 h1 h2
  refine ⟨_, g, e4, ?_⟩
  have hread : read_header E.TSK_HDB_NAME_MAXLEN (List.replicate E.TSK_HDB_NAME_MAXLEN none)
      (setup_result E hdb_info).2.idx.hIdx =
      (some ((second_read E.TSK_HDB_NAME_MAXLEN (index_file E hdb_info)).map some ++ some 0 :: g),
        (read_header E.TSK_HDB_NAME_MAXLEN (List.replicate E.TSK_HDB_NAME_MAXLEN none)
          (setup_result E hdb_info).2.idx.hIdx).2) :=
    Prod.ext hg rfl
  exact idxonly_name_read_ok E hdb_info log _ _ hsetup hread

theorem memset_exact (a : List Nat) (n : Nat) (h : a.length = n) :
    memset a 0 n = List.replicate n 0 := by
  unfold memset
  rw [List.drop_of_length_le (by omega), List.append_nil]

theorem cstr_length_le (s : List Nat) : (cstr s).length ≤ s.length := by
  unfold cstr
  exact (List.takeWhile_sublist _).length_le

/-- The fall-back exits in terms of the reads: when opening fails, the file is empty,
the first read leaves nothing, or the text of the second read does not begin with the
marker, `idxonly_name` returns what `tsk_hdb_name_from_path` returns. -/
theorem idxonly_name_fallback_exits (E : Env) (hdb_info : TSK_TEXT_HDB_INFO)
    (log : List Call)
    (h : (setup_result E hdb_info).1 = 0 ∨
      index_file E hdb_info = [] ∨
      (index_file E hdb_info).drop
        (first_read E.TSK_HDB_NAME_MAXLEN (index_file E hdb_info)).length = [] ∨
      ¬ cstr E.TSK_HDB_IDX_HEAD_NAME_STR <+:
        cstr (second_read E.TSK_HDB_NAME_MAXLEN (index_file E hdb_info))) :
    ∃ d1 diag,
      idxonly_name E hdb_info log = .ok (E.tsk_hdb_name_from_path d1,
        log ++ [Call.tsk_hdb_idxsetup (cleared E hdb_info) E.TSK_HDB_HTYPE_MD5_ID] ++ diag ++
          [Call.tsk_hdb_name_from_path d1]) ∧
      ((cleared E hdb_info).idx.db_name.take E.TSK_HDB_NAME_MAXLEN =
        List.replicate E.TSK_HDB_NAME_MAXLEN 0) ∧
      (diag = [] ∨ ∃ msg, diag = [Call.fprintf_stderr msg]) ∧
      (E.tsk_verbose = 0 → diag = []) ∧
      d1.base = (setup_result E hdb_info).2.base ∧
      d1.getentry = (setup_result E hdb_info).2.getentry ∧
      d1.idx.db_name = (setup_result E hdb_info).2.idx.db_name ∧
      d1.idx.hIdx.content = index_file E hdb_info := by
  have hclear : (cleared E hdb_info).idx.db_name.take E.TSK_HDB_NAME_MAXLEN =
      List.replicate E.TSK_HDB_NAME_MAXLEN 0 := by
    simp [cleared, memset, List.take_append_eq_append_take]
  by_cases hs : (setup_result E hdb_info).1 = 0
  · obtain ⟨diag, hd, hdiag, hv⟩ := name_fallback_eq E
      "Failed to get name from index (index does not exist); using file name instead"
      (setup_result E hdb_info).2 (setup_log E hdb_info log)
    refine ⟨(setup_result E hdb_info).2, diag, ?_, hclear, ?_, hv, rfl, rfl, rfl, rfl⟩
    · rw [idxonly_name_setup_failed E hdb_info log hs]
      exact congrArg Except.ok hd
    · rcases hdiag with h1 | h1
      · exact Or.inl h1
      · exact Or.inr ⟨_, h1⟩
  · cases hread : read_header E.TSK_HDB_NAME_MAXLEN
        (List.replicate E.TSK_HDB_NAME_MAXLEN none) (setup_result E hdb_info).2.idx.hIdx with
    | mk o hFile =>
      have hcont : hFile.content = index_file E hdb_info := by
        have := read_header_content E.TSK_HDB_NAME_MAXLEN
          (List.replicate E.TSK_HDB_NAME_MAXLEN none) (setup_result E hdb_info).2.idx.hIdx
        rw [hread] at this
        exact this
      obtain ⟨diag, hd, hdiag, hv⟩ := name_fallback_eq E
        "Failed to read name from index; using file name instead"
        { (setup_result E hdb_info).2 with
          idx := { (setup_result E hdb_info).2.idx with hIdx := hFile } }
        (setup_log E hdb_info log)
      have hdiag2 : diag = [] ∨ ∃ msg, diag = [Call.fprintf_stderr msg] := by
        rcases hdiag with h1 | h1
        · exact Or.inl h1
        · exact Or.inr ⟨_, h1⟩
      refine ⟨{ (setup_result E hdb_info).2 with
          idx := { (setup_result E hdb_info).2.idx with hIdx := hFile } },
        diag, ?_, hclear, hdiag2, hv, rfl, rfl, rfl, hcont⟩
      cases o with
      | none =>
        rw [idxonly_name_read_failed E hdb_info log hFile hs hread]
        exact congrArg Except.ok hd
      | some buf =>
        obtain ⟨hn, h1, h2, ⟨g, hg⟩, _⟩ := read_header_some _ _ _ _ _ hread
        have hmark : ¬ cstr E.TSK_HDB_IDX_HEAD_NAME_STR <+:
            cstr (second_read E.TSK_HDB_NAME_MAXLEN (index_file E hdb_info)) := by
          rcases h with h | h | h | h
          · exact absurd h hs
          · exact absurd h h1
          · exact absurd h h2
          · exact h
        have hparse := (parse_header_cells E
          (second_read E.TSK_HDB_NAME_MAXLEN (index_file E hdb_info)) g
          (setup_result E hdb_info).2.idx.db_name).1 hmark
        rw [idxonly_name_read_ok E hdb_info log buf hFile hs hread, hg]
        have hparse2 : parse_header E
            (List.map some (second_read E.TSK_HDB_NAME_MAXLEN
              (setup_result E hdb_info).2.idx.hIdx.content) ++ some 0 :: g)
            (E.tsk_hdb_idxsetup (cleared E hdb_info) E.TSK_HDB_HTYPE_MD5_ID).2.idx.db_name
            = .ok none := hparse
        rw [hparse2]
        exact congrArg Except.ok hd

theorem until_eol_stop (name rest : List Nat) (h13 : 13 ∉ name) (h10 : 10 ∉ name)
    (hrest : rest = [] ∨ ∃ c r, rest = c :: r ∧ (c = 13 ∨ c = 10)) :
    until_eol (name ++ rest) = name := by
  induction name with
  | nil =>
    rcases hrest with h | ⟨c, r, h, hc | hc⟩
    · simp [h, until_eol]
    · simp [h, hc, until_eol]
    · simp [h, hc, until_eol]
  | cons x name ih =>
    have hx13 : x ≠ 13 := fun h => h13 (by simp [h])
    have hx10 : x ≠ 10 := fun h => h10 (by simp [h])
    have h13b : 13 ∉ name := fun h => h13 (by simp [h])
    have h10b : 10 ∉ name := fun h => h10 (by simp [h])
    have := ih h13b h10b
    unfold until_eol at this ⊢
    simp only [List.cons_append, List.takeWhile_cons]
    simp only [hx13, hx10, ne_eq, not_false_eq_true, and_self, decide_True, if_true]
    rw [this]

/-- C2: when the index opens, the first line with its line feed fits one read, and the
second line is the marker, the delimiter, a name without CR, LF or NUL, and then LF,
CR LF or the end of the file, all within one read, `idxonly_name` returns normally and
leaves in `db_name` exactly the name followed by NULs (the array keeps its declared
size). Delimiters inside the name are part of it. The marker is a string without NUL,
line feed or delimiter; the index service leaves the cleared `db_name` alone. -/
theorem idxonly_name_reads_header_name (E : Env) (hdb_info : TSK_TEXT_HDB_INFO)
    (log : List Call) (line1 name term more : List Nat)
    (hm0 : 0 ∉ E.TSK_HDB_IDX_HEAD_NAME_STR)
    (hm10 : 10 ∉ E.TSK_HDB_IDX_HEAD_NAME_STR)
    (hmbar : 124 ∉ E.TSK_HDB_IDX_HEAD_NAME_STR)
    (hsetup : (setup_result E hdb_info).1 ≠ 0)
    (hsize : hdb_info.idx.db_name.length = E.TSK_HDB_NAME_MAXLEN)
    (hkeep : (setup_result E hdb_info).2.idx.db_name = (cleared E hdb_info).idx.db_name)
    (hfile : index_file E hdb_info =
      line1 ++ 10 :: (E.TSK_HDB_IDX_HEAD_NAME_STR ++ 124 :: name ++ term ++ more))
    (hline1 : 10 ∉ line1)
    (hfit1 : line1.length + 1 ≤ E.TSK_HDB_NAME_MAXLEN - 1)
    (hname : 0 ∉ name ∧ 13 ∉ name ∧ 10 ∉ name)
    (hterm : (term = [] ∧ more = []) ∨ term = [10] ∨ term = [13, 10])
    (hfit2 : (E.TSK_HDB_IDX_HEAD_NAME_STR ++ 124 :: name ++ term).length ≤
      E.TSK_HDB_NAME_MAXLEN - 1) :
    ∃ d, idxonly_name E hdb_info log = .ok (d, setup_log E hdb_info log) ∧
      d.idx.db_name = name ++ List.replicate (E.TSK_HDB_NAME_MAXLEN - name.length) 0 ∧
      d.idx.db_name.length = E.TSK_HDB_NAME_MAXLEN ∧
      d.base = (setup_result E hdb_info).2.base ∧
      d.getentry = (setup_result E hdb_info).2.getentry := by
  obtain ⟨hn0, hn13, hn10⟩ := hname
  have hn : E.TSK_HDB_NAME_MAXLEN ≠ 0 := by omega
  have h1 : index_file E hdb_info ≠ [] := by rw [hfile]; simp
  have hfirst : first_read E.TSK_HDB_NAME_MAXLEN (index_file E hdb_info) = line1 ++ [10] := by
    unfold first_read
    rw [hfile]
    exact take_line_to_lf _ line1 _ hline1 hfit1
  have hrest : (index_file E hdb_info).drop
      (first_read E.TSK_HDB_NAME_MAXLEN (index_file E hdb_info)).length =
      E.TSK_HDB_IDX_HEAD_NAME_STR ++ 124 :: name ++ term ++ more := by
    rw [hfirst, hfile]
    have e : line1 ++ 10 :: (E.TSK_HDB_IDX_HEAD_NAME_STR ++ 124 :: name ++ term ++ more) =
        (line1 ++ [10]) ++ (E.TSK_HDB_IDX_HEAD_NAME_STR ++ 124 :: name ++ term ++ more) := by
      simp
    rw [e]
    exact List.drop_left' rfl
  have h2 : (index_file E hdb_info).drop
      (first_read E.TSK_HDB_NAME_MAXLEN (index_file E hdb_info)).length ≠ [] := by
    rw [hrest]; simp
  have hbody10 : 10 ∉ E.TSK_HDB_IDX_HEAD_NAME_STR ++ 124 :: name := by
    simp only [List.mem_append, List.mem_cons, not_or]
    exact ⟨hm10, by decide, hn10⟩
  have hsecond : second_read E.TSK_HDB_NAME_MAXLEN (index_file E hdb_info) =
      E.TSK_HDB_IDX_HEAD_NAME_STR ++ 124 :: name ++ term := by
    unfold second_read
    rw [hrest]
    rcases hterm with ⟨ht, hmore⟩ | ht | ht
    · subst ht; subst hmore
      simp only [List.append_nil] at hfit2 ⊢
      exact take_line_whole _ _ hbody10 hfit2
    · subst ht
      have e : E.TSK_HDB_IDX_HEAD_NAME_STR ++ 124 :: name ++ [10] ++ more =
          (E.TSK_HDB_IDX_HEAD_NAME_STR ++ 124 :: name) ++ 10 :: more := by simp
      rw [e]
      exact take_line_to_lf _ _ _ hbody10 (by simpa using hfit2)
    · subst ht
      have e : E.TSK_HDB_IDX_HEAD_NAME_STR ++ 124 :: name ++ [13, 10] ++ more =
          (E.TSK_HDB_IDX_HEAD_NAME_STR ++ 124 :: name ++ [13]) ++ 10 :: more := by simp
      have e2 : E.TSK_HDB_IDX_HEAD_NAME_STR ++ 124 :: name ++ [13, 10] =
          (E.TSK_HDB_IDX_HEAD_NAME_STR ++ 124 :: name ++ [13]) ++ [10] := by simp
      have h10c : 10 ∉ E.TSK_HDB_IDX_HEAD_NAME_STR ++ 124 :: name ++ [13] := by
        simp only [List.mem_append, List.mem_cons, List.mem_singleton, not_or]
        exact ⟨⟨hm10, by decide, hn10⟩, by decide⟩
      rw [e, e2]
      refine take_line_to_lf _ _ _ h10c ?_
      rw [e2] at hfit2
      simpa using hfit2
  have hterm0 : 0 ∉ term := by
    rcases hterm with ⟨ht, _⟩ | ht | ht <;> subst ht <;> decide
  have hchunk0 : 0 ∉ E.TSK_HDB_IDX_HEAD_NAME_STR ++ 124 :: name ++ term := by
    simp only [List.mem_append, List.mem_cons, not_or]
    exact ⟨⟨hm0, by decide, hn0⟩, hterm0⟩
  have hcs : cstr (E.TSK_HDB_IDX_HEAD_NAME_STR ++ 124 :: name ++ term) =
      E.TSK_HDB_IDX_HEAD_NAME_STR ++ 124 :: (name ++ term) := by
    rw [cstr_eq_self_of_no_nul _ hchunk0]
    simp
  have hmark : cstr E.TSK_HDB_IDX_HEAD_NAME_STR <+:
      cstr (second_read E.TSK_HDB_NAME_MAXLEN (index_file E hdb_info)) := by
    rw [hsecond, hcs, cstr_eq_self_of_no_nul _ hm0]
    exact List.prefix_append _ _
  have heol : until_eol (name ++ term) = name := by
    apply until_eol_stop name term hn13 hn10
    rcases hterm with ⟨ht, _⟩ | ht | ht
    · exact Or.inl ht
    · exact Or.inr ⟨10, [], ht, Or.inr rfl⟩
    · exact Or.inr ⟨13, [10], ht, Or.inl rfl⟩
  have hdb : (setup_result E hdb_info).2.idx.db_name =
      List.replicate E.TSK_HDB_NAME_MAXLEN 0 := by
    rw [hkeep]
    exact memset_exact _ _ hsize
  have hlen : name.length ≤ E.TSK_HDB_NAME_MAXLEN := by
    simp only [List.length_append, List.length_cons] at hfit2
    omega
  obtain ⟨hFile, g, _, hrun⟩ := idxonly_name_header E hdb_info log hsetup hn h1 h2
  have hparse := (parse_header_cells E
    (second_read E.TSK_HDB_NAME_MAXLEN (index_file E hdb_info)) g
    (setup_result E hdb_info).2.idx.db_name).2.2 hmark _ _ (by rw [hsecond, hcs]) hmbar
    (by rw [heol, hdb]; simpa using hlen)
  rw [hparse] at hrun
  refine ⟨_, hrun, ?_, ?_, rfl, rfl⟩
  · simp [heol, hdb]
  · simp [heol, hdb]
    omega

/-- C9: when the index opens and the second line read begins with the marker but holds
no delimiter, `strchr` returns NULL, and `idxonly_name` goes on to read through
`NULL + 1`: the run ends in undefined behaviour, it does not return with `db_name`
zeroed. -/
theorem idxonly_name_missing_delimiter (E : Env) (hdb_info : TSK_TEXT_HDB_INFO)
    (log : List Call)
    (hsetup : (setup_result E hdb_info).1 ≠ 0)
    (hn : E.TSK_HDB_NAME_MAXLEN ≠ 0)
    (h1 : index_file E hdb_info ≠ [])
    (h2 : (index_file E hdb_info).drop
      (first_read E.TSK_HDB_NAME_MAXLEN (index_file E hdb_info)).length ≠ [])
    (hmark : cstr E.TSK_HDB_IDX_HEAD_NAME_STR <+:
      cstr (second_read E.TSK_HDB_NAME_MAXLEN (index_file E hdb_info)))
    (hbar : 124 ∉ cstr (second_read E.TSK_HDB_NAME_MAXLEN (index_file E hdb_info))) :
    idxonly_name E hdb_info log = .error UB.null_deref := by
  obtain ⟨hFile, g, _, hrun⟩ := idxonly_name_header E hdb_info log hsetup hn h1 h2
  have hparse := (parse_header_cells E
    (second_read E.TSK_HDB_NAME_MAXLEN (index_file E hdb_info)) g
    (setup_result E hdb_info).2.idx.db_name).2.1 hmark hbar
  rw [hparse] at hrun
  exact hrun

/-- C7: on the header-parsing path (the index opens, both reads succeed, the marker
test passes, `strchr` finds a delimiter) `idxonly_name` returns without any access
outside `buf` or `db_name` and without reading a cell that was never written; `db_name`
keeps its declared size and holds a name followed only by NULs, where the name has no
NUL, CR or LF and is at least two characters shorter than the array: all NULs when
the name is empty, else a terminated string. The second line may be longer than the
buffer. The index service leaves the cleared `db_name` alone. -/
theorem idxonly_name_db_name_wellformed (E : Env) (hdb_info : TSK_TEXT_HDB_INFO)
    (log : List Call) (buf : List Cell) (hFile : FILE) (m p : Nat)
    (hsetup : (setup_result E hdb_info).1 ≠ 0)
    (hsize : hdb_info.idx.db_name.length = E.TSK_HDB_NAME_MAXLEN)
    (hkeep : (setup_result E hdb_info).2.idx.db_name = (cleared E hdb_info).idx.db_name)
    (hread : read_header E.TSK_HDB_NAME_MAXLEN (List.replicate E.TSK_HDB_NAME_MAXLEN none)
      (setup_result E hdb_info).2.idx.hIdx = (some buf, hFile))
    (hlen : strlen (literal E.TSK_HDB_IDX_HEAD_NAME_STR) = .ok m)
    (hmark : strncmp buf (literal E.TSK_HDB_IDX_HEAD_NAME_STR) m = .ok 0)
    (hbar : strchr buf 124 = .ok (some p)) :
    ∃ d name, idxonly_name E hdb_info log = .ok (d, setup_log E hdb_info log) ∧
      d.idx.db_name = name ++ List.replicate (E.TSK_HDB_NAME_MAXLEN - name.length) 0 ∧
      d.idx.db_name.length = E.TSK_HDB_NAME_MAXLEN ∧
      name.length + 2 ≤ E.TSK_HDB_NAME_MAXLEN ∧
      0 ∉ name ∧ 13 ∉ name ∧ 10 ∉ name := by
  obtain ⟨hn, h1, h2, ⟨g, hg⟩, _⟩ := read_header_some _ _ _ _ _ hread
  have hdb : (setup_result E hdb_info).2.idx.db_name =
      List.replicate E.TSK_HDB_NAME_MAXLEN 0 := by
    rw [hkeep]
    exact memset_exact _ _ hsize
  generalize hchunk : second_read E.TSK_HDB_NAME_MAXLEN
    (setup_result E hdb_info).2.idx.hIdx.content = chunk at hg
  have hchunk_len : chunk.length ≤ E.TSK_HDB_NAME_MAXLEN - 1 := by
    rw [← hchunk]
    exact take_line_length_le _ _
  obtain ⟨g1, hg1⟩ := cells_cstr chunk g
  obtain ⟨g2, hg2⟩ := literal_cstr E.TSK_HDB_IDX_HEAD_NAME_STR
  have hm0 := nul_not_mem_cstr E.TSK_HDB_IDX_HEAD_NAME_STR
  have hs0 := nul_not_mem_cstr chunk
  obtain ⟨v, hv, hiff⟩ := strncmp_cells (cstr E.TSK_HDB_IDX_HEAD_NAME_STR) (cstr chunk) g1 g2
    hm0 hs0
  have hl := strlen_cells (cstr E.TSK_HDB_IDX_HEAD_NAME_STR) g2 hm0
  rw [hg2, hl] at hlen
  have hm_eq : (cstr E.TSK_HDB_IDX_HEAD_NAME_STR).length = m := by
    injection hlen
  rw [hg, hg1, hg2, ← hm_eq, hv] at hmark
  have hv0 : v = 0 := by injection hmark
  have hpre : cstr E.TSK_HDB_IDX_HEAD_NAME_STR <+: cstr chunk := hiff.mp hv0
  have hmem : 124 ∈ cstr chunk := by
    by_contra hno
    have := strchr_absent 124 (by decide) (cstr chunk) g1 hs0 hno
    rw [hg, hg1, this] at hbar
    injection hbar with h
    exact absurd h (by simp)
  obtain ⟨a, t, hat, hna⟩ := split_at_first 124 (cstr chunk) hmem
  have hcl := cstr_length_le chunk
  have htl := until_eol_length_le t
  have hatl : (cstr chunk).length = a.length + (t.length + 1) := by rw [hat]; simp
  have hroom : (until_eol t).length ≤
      ((setup_result E hdb_info).2.idx.db_name).length := by
    rw [hdb]
    simp
    omega
  have hparse := (parse_header_cells E chunk g
    (setup_result E hdb_info).2.idx.db_name).2.2 hpre a t hat hna hroom
  have hrun := idxonly_name_read_ok E hdb_info log buf hFile hsetup hread
  rw [hg] at hrun
  have hparse2 : parse_header E (List.map some chunk ++ some 0 :: g)
      (E.tsk_hdb_idxsetup (cleared E hdb_info) E.TSK_HDB_HTYPE_MD5_ID).2.idx.db_name =
      .ok (some (until_eol t ++
        List.drop (until_eol t).length (setup_result E hdb_info).2.idx.db_name)) := hparse
  rw [hparse2] at hrun
  have hsub : ∀ x, x ∈ until_eol t → x ∈ cstr chunk := by
    intro x hx
    rw [hat]
    simp [until_eol_subset t x hx]
  refine ⟨_, until_eol t, hrun, ?_, ?_, by omega, fun h => hs0 (hsub 0 h),
    (until_eol_no_eol t).1, (until_eol_no_eol t).2⟩
  · simp [hdb]
  · simp [hdb]
    omega

theorem string_of_cells (chunk : List Nat) (g : List Cell) :
    string_of (chunk.map some ++ some 0 :: g) = cstr chunk := by
  induction chunk with
  | nil => simp [string_of, cstr]
  | cons c cs ih =>
    by_cases hc : c = 0
    · simp [string_of, cstr, hc]
    · simp only [cstr, decide_not] at ih ⊢
      simp [string_of, List.takeWhile_cons, hc, ih]

theorem second_line_eq (l1 rest : List Nat) (h : 10 ∉ l1) :
    second_line (l1 ++ 10 :: rest) = rest.takeWhile (fun c => c ≠ 10) := by
  unfold second_line
  induction l1 with
  | nil => simp
  | cons x l1 ih =>
    have hx : x ≠ 10 := fun h1 => h (by simp [h1])
    have hl : 10 ∉ l1 := fun h1 => h (by simp [h1])
    have := ih hl
    simp only [List.cons_append, List.dropWhile_cons]
    simp only [hx, ne_eq, not_false_eq_true, decide_True, if_true]
    exact this

theorem takeWhile_not_lf_whole (l : List Nat) (h : 10 ∉ l) :
    l.takeWhile (fun c => c ≠ 10) = l := by
  rw [List.takeWhile_eq_self_iff]
  intro x hx
  have : x ≠ 10 := fun h0 => h (h0 ▸ hx)
  simpa using this

theorem takeWhile_not_lf_stop (l more : List Nat) (h : 10 ∉ l) :
    (l ++ 10 :: more).takeWhile (fun c => c ≠ 10) = l := by
  induction l with
  | nil => simp
  | cons x l ih =>
    have hx : x ≠ 10 := fun h1 => h (by simp [h1])
    have hl : 10 ∉ l := fun h1 => h (by simp [h1])
    have := ih hl
    simp only [List.cons_append, List.takeWhile_cons]
    simp only [hx, ne_eq, not_false_eq_true, decide_True, if_true]
    rw [this]

/-- C10, as the code has it: when the index opens and the first line with its line feed
fits one read, `idxonly_name` drops exactly that line; the text it compares with the
marker and scans for the name is the string of what one read takes from the bytes after
the first line feed (at most `TSK_HDB_NAME_MAXLEN - 1` of them, none after the next line
feed). That is the second line with its line feed when that fits one read and has no
NUL, and the rest of the file when it has no line feed, no NUL and fits. -/
theorem idxonly_name_skips_short_first_line (E : Env) (hdb_info : TSK_TEXT_HDB_INFO)
    (log : List Call) (line1 rest : List Nat)
    (hsetup : (setup_result E hdb_info).1 ≠ 0)
    (hfile : index_file E hdb_info = line1 ++ 10 :: rest)
    (hline1 : 10 ∉ line1)
    (hfit1 : line1.length + 1 ≤ E.TSK_HDB_NAME_MAXLEN - 1)
    (hrest : rest ≠ []) :
    header_text E.TSK_HDB_NAME_MAXLEN (setup_result E hdb_info).2.idx.hIdx =
      some (cstr (take_line (E.TSK_HDB_NAME_MAXLEN - 1) rest)) ∧
    (∀ l2 more, rest = l2 ++ 10 :: more → 10 ∉ l2 → 0 ∉ l2 →
      l2.length + 1 ≤ E.TSK_HDB_NAME_MAXLEN - 1 →
      header_text E.TSK_HDB_NAME_MAXLEN (setup_result E hdb_info).2.idx.hIdx =
        some (second_line (index_file E hdb_info) ++ [10])) ∧
    (10 ∉ rest → 0 ∉ rest → rest.length ≤ E.TSK_HDB_NAME_MAXLEN - 1 →
      header_text E.TSK_HDB_NAME_MAXLEN (setup_result E hdb_info).2.idx.hIdx =
        some (second_line (index_file E hdb_info))) ∧
    ∃ hFile g, idxonly_name E hdb_info log =
      match parse_header E
        ((take_line (E.TSK_HDB_NAME_MAXLEN - 1) rest).map some ++ some 0 :: g)
        (setup_result E hdb_info).2.idx.db_name with
      | .error e => .error e
      | .ok none => .ok (name_fallback E
          "Failed to read name from index; using file name instead"
          { (setup_result E hdb_info).2 with
            idx := { (setup_result E hdb_info).2.idx with hIdx := hFile } }
          (setup_log E hdb_info log))
      | .ok (some db_name) => .ok (
          { (setup_result E hdb_info).2 with idx := { db_name := db_name, hIdx := hFile } },
          setup_log E hdb_info log) := by
  have hn : E.TSK_HDB_NAME_MAXLEN ≠ 0 := by omega
  have h1 : index_file E hdb_info ≠ [] := by rw [hfile]; simp
  have hfirst : first_read E.TSK_HDB_NAME_MAXLEN (index_file E hdb_info) = line1 ++ [10] := by
    unfold first_read
    rw [hfile]
    exact take_line_to_lf _ line1 _ hline1 hfit1
  have hdrop : (index_file E hdb_info).drop
      (first_read E.TSK_HDB_NAME_MAXLEN (index_file E hdb_info)).length = rest := by
    rw [hfirst, hfile]
    have e : line1 ++ 10 :: rest = (line1 ++ [10]) ++ rest := by simp
    rw [e]
    exact List.drop_left' rfl
  have h2 : (index_file E hdb_info).drop
      (first_read E.TSK_HDB_NAME_MAXLEN (index_file E hdb_info)).length ≠ [] := by
    rw [hdrop]; exact hrest
  have hsecond : second_read E.TSK_HDB_NAME_MAXLEN (index_file E hdb_info) =
      take_line (E.TSK_HDB_NAME_MAXLEN - 1) rest := by
    unfold second_read
    rw [hdrop]
  obtain ⟨_, _, e3, _⟩ := read_header_eq E.TSK_HDB_NAME_MAXLEN
    (List.replicate E.TSK_HDB_NAME_MAXLEN none) (setup_result E hdb_info).2.idx.hIdx hn
  obtain ⟨g0, hg0⟩ := e3 h1 h2
  have htext : header_text E.TSK_HDB_NAME_MAXLEN (setup_result E hdb_info).2.idx.hIdx =
      some (cstr (take_line (E.TSK_HDB_NAME_MAXLEN - 1) rest)) := by
    unfold header_text
    rw [hg0]
    simp only [Option.map_some']
    rw [string_of_cells]
    exact congrArg (fun x => some (cstr x)) hsecond
  refine ⟨htext, ?_, ?_, ?_⟩
  · intro l2 more hl2 h10 h0 hfit2
    rw [htext, hfile, second_line_eq _ _ hline1, hl2, take_line_to_lf _ l2 more h10 hfit2,
      takeWhile_not_lf_stop _ _ h10]
    have : 0 ∉ l2 ++ [10] := by
      simp only [List.mem_append, List.mem_singleton, not_or]
      exact ⟨h0, by decide⟩
    rw [cstr_eq_self_of_no_nul _ this]
  · intro h10 h0 hfit2
    rw [htext, hfile, second_line_eq _ _ hline1, take_line_whole _ rest h10 hfit2,
      takeWhile_not_lf_whole _ h10, cstr_eq_self_of_no_nul _ h0]
  · obtain ⟨hFile, g, _, hrun⟩ := idxonly_name_header E hdb_info log hsetup hn h1 h2
    rw [hsecond] at hrun
    exact ⟨hFile, g, hrun⟩

theorem first_read_takes_all (k : Nat) : ∀ file : List Nat,
    fewer_than_two_lines file = true → file.length ≤ k →
    file.drop (take_line k file).length = [] := by
  induction k with
  | zero =>
    intro file _ hl
    have : file = [] := List.length_eq_zero.mp (by omega)
    simp [this]
  | succ k ih =>
    intro file hf hl
    cases file with
    | nil => simp
    | cons c cs =>
      by_cases hc : c = 10
      · subst hc
        have hcs : cs = [] := by
          simpa [fewer_than_two_lines, List.dropWhile_cons] using hf
        simp [hcs, take_line]
      · have hf2 : fewer_than_two_lines cs = true := by
          simpa [fewer_than_two_lines, List.dropWhile_cons, hc] using hf
        have hl2 : cs.length ≤ k := by simp at hl; omega
        have := ih cs hf2 hl2
        simp [take_line, hc, this]

theorem no_lf_start_of_take_line (k : Nat) : ∀ (l m : List Nat), 10 ∉ m →
    m <+: take_line k l → m <+: l.takeWhile (fun c => c ≠ 10) := by
  induction k with
  | zero =>
    intro l m _ h
    simp only [take_line] at h
    rw [List.prefix_nil.mp h]
    exact List.nil_prefix
  | succ k ih =>
    intro l m hm h
    cases l with
    | nil =>
      simp only [take_line] at h
      rw [List.prefix_nil.mp h]
      exact List.nil_prefix
    | cons c cs =>
      cases m with
      | nil => exact List.nil_prefix
      | cons x m =>
        have hx : x ≠ 10 := fun h1 => hm (by simp [h1])
        have hm2 : 10 ∉ m := fun h1 => hm (by simp [h1])
        by_cases hc : c = 10
        · simp only [take_line, hc, if_true, List.cons_prefix_cons] at h
          exact absurd h.1 hx
        · simp only [take_line, hc, if_false, List.cons_prefix_cons] at h
          have := ih cs m hm2 h.2
          simp only [List.takeWhile_cons, hc, ne_eq, not_false_eq_true, decide_True, if_true,
            List.cons_prefix_cons]
          exact ⟨h.1, this⟩

/-- C3, as the code has it: `idxonly_name` takes the fall-back exit when opening the
index fails, or the index file is empty, or the file has fewer than two lines and fits
one read (at most `TSK_HDB_NAME_MAXLEN - 1` bytes), or the first line with its line feed
fits one read and the second line does not begin with the marker (a string without line
feed), or, in general, the text the second read takes does not begin with the marker.
Then it returns normally; what it does is clear `db_name`, call `tsk_hdb_idxsetup`,
print at most one diagnostic (none unless `tsk_verbose`), and call
`tsk_hdb_name_from_path` once, last, on a descriptor whose `db_name` is as the index
service left it. The result is what that call returns; no error call is made. -/
theorem idxonly_name_falls_back_to_path (E : Env) (hdb_info : TSK_TEXT_HDB_INFO)
    (log : List Call)
    (h : (setup_result E hdb_info).1 = 0 ∨
      index_file E hdb_info = [] ∨
      (fewer_than_two_lines (index_file E hdb_info) = true ∧
        (index_file E hdb_info).length ≤ E.TSK_HDB_NAME_MAXLEN - 1) ∨
      (10 ∉ cstr E.TSK_HDB_IDX_HEAD_NAME_STR ∧
        (∃ line1 rest, index_file E hdb_info = line1 ++ 10 :: rest ∧ 10 ∉ line1 ∧
          line1.length + 1 ≤ E.TSK_HDB_NAME_MAXLEN - 1) ∧
        ¬ cstr E.TSK_HDB_IDX_HEAD_NAME_STR <+: second_line (index_file E hdb_info)) ∨
      ¬ cstr E.TSK_HDB_IDX_HEAD_NAME_STR <+:
        cstr (second_read E.TSK_HDB_NAME_MAXLEN (index_file E hdb_info))) :
    ∃ d1 diag,
      idxonly_name E hdb_info log = .ok (E.tsk_hdb_name_from_path d1,
        log ++ [Call.tsk_hdb_idxsetup (cleared E hdb_info) E.TSK_HDB_HTYPE_MD5_ID] ++ diag ++
          [Call.tsk_hdb_name_from_path d1]) ∧
      ((cleared E hdb_info).idx.db_name.take E.TSK_HDB_NAME_MAXLEN =
        List.replicate E.TSK_HDB_NAME_MAXLEN 0) ∧
      (diag = [] ∨ ∃ msg, diag = [Call.fprintf_stderr msg]) ∧
      (E.tsk_verbose = 0 → diag = []) ∧
      d1.base = (setup_result E hdb_info).2.base ∧
      d1.getentry = (setup_result E hdb_info).2.getentry ∧
      d1.idx.db_name = (setup_result E hdb_info).2.idx.db_name ∧
      d1.idx.hIdx.content = index_file E hdb_info := by
  apply idxonly_name_fallback_exits E hdb_info log
  rcases h with h | h | ⟨hf, hl⟩ | ⟨hm10, ⟨line1, rest, hfile, hline1, hfit1⟩, hno⟩ | h
  · exact Or.inl h
  · exact Or.inr (Or.inl h)
  · refine Or.inr (Or.inr (Or.inl ?_))
    unfold first_read
    exact first_read_takes_all _ _ hf hl
  · refine Or.inr (Or.inr (Or.inr ?_))
    intro hpre
    apply hno
    have hfirst : first_read E.TSK_HDB_NAME_MAXLEN (index_file E hdb_info) =
        line1 ++ [10] := by
      unfold first_read
      rw [hfile]
      exact take_line_to_lf _ line1 _ hline1 hfit1
    have hdrop : (index_file E hdb_info).drop
        (first_read E.TSK_HDB_NAME_MAXLEN (index_file E hdb_info)).length = rest := by
      rw [hfirst, hfile]
      have e : line1 ++ 10 :: rest = (line1 ++ [10]) ++ rest := by simp
      rw [e]
      exact List.drop_left' rfl
    have hsecond : second_read E.TSK_HDB_NAME_MAXLEN (index_file E hdb_info) =
        take_line (E.TSK_HDB_NAME_MAXLEN - 1) rest := by
      unfold second_read
      rw [hdrop]
    rw [hsecond] at hpre
    have hsub : cstr (take_line (E.TSK_HDB_NAME_MAXLEN - 1) rest) <+:
        take_line (E.TSK_HDB_NAME_MAXLEN - 1) rest := by
      unfold cstr
      exact List.takeWhile_prefix _
    have := no_lf_start_of_take_line _ rest _ hm10 (hpre.trans hsub)
    rw [hfile, second_line_eq _ _ hline1]
    exact this
  · exact Or.inr (Or.inr (Or.inr h))

/-! ## `idxonly_getentry` -/

/-- C1: whatever the descriptor, hash, offset, flags, callback and context,
`idxonly_getentry` returns 1; what it does outside is exactly `tsk_error_reset`, then
`tsk_error_set_errno(TSK_ERR_HDB_ARG)`, then `tsk_error_set_errstr` with one fixed
message; none of its calls is a call of the callback; and status and calls are the same
for any other arguments. -/
theorem idxonly_getentry_always_rejects (E : Env) (hdb_info hdb_info2 : TSK_TEXT_HDB_INFO)
    (hash hash2 : List Nat) (offset offset2 : Int) (flags flags2 : Nat)
    (action action2 : Option TSK_HDB_LOOKUP_FN) (cb_ptr cb_ptr2 : Nat) (log : List Call) :
    (idxonly_getentry E hdb_info hash offset flags action cb_ptr log).1 = 1 ∧
    (idxonly_getentry E hdb_info hash offset flags action cb_ptr log).2 =
      log ++ [Call.tsk_error_reset, Call.tsk_error_set_errno E.TSK_ERR_HDB_ARG,
        Call.tsk_error_set_errstr
          "idxonly_getentry: Not supported when INDEX ONLY option is used"] ∧
    (∀ c ∈ (idxonly_getentry E hdb_info hash offset flags action cb_ptr log).2.drop log.length,
      ∀ h n p, c ≠ Call.action h n p) ∧
    idxonly_getentry E hdb_info2 hash2 offset2 flags2 action2 cb_ptr2 log =
      idxonly_getentry E hdb_info hash offset flags action cb_ptr log := by
  refine ⟨rfl, rfl, ?_, rfl⟩
  intro c hc h n p
  simp [idxonly_getentry] at hc
  rcases hc with rfl | rfl | rfl <;> simp

/-! ## `idxonly_makeindex` -/

/-- C4: `idxonly_makeindex` calls `tsk_hdb_idxinitialize` once, with the descriptor and
the tag printed from `TSK_HDB_DBTYPE_MD5SUM_STR` (that string itself when it is shorter
than the 1024 character buffer); it returns 1 and calls
`tsk_error_set_errstr2("idxonly_makeindex")` exactly when the service reports non-zero,
else returns 0 and makes no further call; the caller's `dbtype` changes nothing. -/
theorem idxonly_makeindex_forwards_default (E : Env) (hdb_info : TSK_TEXT_HDB_INFO)
    (dbtype dbtype2 : Option (List Nat)) (log : List Call) :
    idxonly_makeindex E hdb_info dbtype log =
      (if ( E.tsk_hdb_idxinitialize hdb_info (TSNPRINTF 1024 E.TSK_HDB_DBTYPE_MD5SUM_STR)).1 ≠ 0
       then (1, ( E.tsk_hdb_idxinitialize hdb_info (TSNPRINTF 1024 E.TSK_HDB_DBTYPE_MD5SUM_STR)).2,
          log ++ [ Call.tsk_hdb_idxinitialize hdb_info (TSNPRINTF 1024 E.TSK_HDB_DBTYPE_MD5SUM_STR),
            Call.tsk_error_set_errstr2 "idxonly_makeindex"])
       else (0, ( E.tsk_hdb_idxinitialize hdb_info (TSNPRINTF 1024 E.TSK_HDB_DBTYPE_MD5SUM_STR)).2,
          log ++ [ Call.tsk_hdb_idxinitialize hdb_info
            (TSNPRINTF 1024 E.TSK_HDB_DBTYPE_MD5SUM_STR)])) ∧
    ((idxonly_makeindex E hdb_info dbtype log).1 = 1 ↔
      ( E.tsk_hdb_idxinitialize hdb_info (TSNPRINTF 1024 E.TSK_HDB_DBTYPE_MD5SUM_STR)).1 ≠ 0) ∧
    ((idxonly_makeindex E hdb_info dbtype log).1 = 0 ↔
      ( E.tsk_hdb_idxinitialize hdb_info (TSNPRINTF 1024 E.TSK_HDB_DBTYPE_MD5SUM_STR)).1 = 0) ∧
    ((0 ∉ E.TSK_HDB_DBTYPE_MD5SUM_STR ∧ E.TSK_HDB_DBTYPE_MD5SUM_STR.length < 1024) →
      TSNPRINTF 1024 E.TSK_HDB_DBTYPE_MD5SUM_STR = E.TSK_HDB_DBTYPE_MD5SUM_STR) ∧
    idxonly_makeindex E hdb_info dbtype2 log = idxonly_makeindex E hdb_info dbtype log := by
  refine ⟨?_, ?_, ?_, ?_, rfl⟩
  · unfold idxonly_makeindex
    by_cases h : ( E.tsk_hdb_idxinitialize hdb_info
        (TSNPRINTF 1024 E.TSK_HDB_DBTYPE_MD5SUM_STR)).1 = 0
    · simp [h]
    · simp [h]
  · unfold idxonly_makeindex
    by_cases h : ( E.tsk_hdb_idxinitialize hdb_info
        (TSNPRINTF 1024 E.TSK_HDB_DBTYPE_MD5SUM_STR)).1 = 0
    · simp [h]
    · simp [h]
  · unfold idxonly_makeindex
    by_cases h : ( E.tsk_hdb_idxinitialize hdb_info
        (TSNPRINTF 1024 E.TSK_HDB_DBTYPE_MD5SUM_STR)).1 = 0
    · simp [h]
    · simp [h]
  · rintro ⟨h0, hlen⟩
    have hc : cstr E.TSK_HDB_DBTYPE_MD5SUM_STR = E.TSK_HDB_DBTYPE_MD5SUM_STR :=
      cstr_eq_self_of_no_nul _ h0
    unfold TSNPRINTF
    rw [hc]
    exact List.take_of_length_le (by omega)


/-! ## `idxonly_open` -/

theorem TSTRNCPY_exact (block path : List Nat) (h : block.length = TSTRLEN path + 8) :
    TSTRNCPY block path (TSTRLEN path + 8) = cstr path ++ List.replicate 8 0 := by
  unfold TSTRNCPY TSTRLEN
  unfold TSTRLEN at h
  have h1 : (cstr path).length + 8 - (cstr path).length = 8 := by omega
  rw [h1, List.drop_of_length_le (by omega), List.append_nil]
  exact List.take_of_length_le (by simp)

/-- What `idxonly_open` returns: NULL exactly on a failed allocation, else a descriptor
with every field the source assigns. -/
theorem idxonly_open_fields (E : Env) (idx_path : List Nat)
    (desc_mem : Option TSK_TEXT_HDB_INFO) (fname_mem : Nat → Option (List Nat))
    (log : List Call) :
    ((idxonly_open E idx_path desc_mem fname_mem log).1 = none ↔
      (desc_mem = none ∨ fname_mem (TSTRLEN idx_path + 8) = none)) ∧
    ∀ d, (idxonly_open E idx_path desc_mem fname_mem log).1 = some d →
      d.base.db_type = E.TSK_HDB_DBTYPE_IDXONLY_ID ∧
      d.base.updateable = 0 ∧
      d.base.uses_external_index = 1 ∧
      d.base.hash_type = E.TSK_HDB_HTYPE_INVALID_ID ∧
      d.base.hash_len = 0 ∧
      d.base.makeindex = some HdbFn.idxonly_makeindex ∧
      d.getentry = some HdbFn.idxonly_getentry ∧
      d.base.add_comment = none ∧
      d.base.add_filename = none ∧
      d.base.idx_fname ≠ none ∧
      (idxonly_open E idx_path desc_mem fname_mem log).2 = log ++ [Call.tsk_init_lock] := by
  unfold idxonly_open
  cases desc_mem with
  | none => simp
  | some t =>
    cases hf : fname_mem (TSTRLEN idx_path + 8) with
    | none => simp [hf]
    | some block =>
      simp only [hf]
      refine ⟨by simp, ?_⟩
      intro d hd
      simp only [Option.some.injEq] at hd
      subst hd
      simp

/-- C5: on a non-null path `idxonly_open` returns NULL exactly when the descriptor block
or the path block is not allocated; a descriptor it returns has `db_type`, `updateable`,
`uses_external_index`, `hash_type`, `hash_len`, `makeindex` and `getentry` set as the
source sets them, `add_comment` and `add_filename` NULL, a non-null `idx_fname`, and the
lock initialised (the one call the function makes). -/
theorem idxonly_open_null_or_initialised (E : Env) (idx_path : List Nat)
    (desc_mem : Option TSK_TEXT_HDB_INFO) (fname_mem : Nat → Option (List Nat))
    (log : List Call) :
    ((idxonly_open E idx_path desc_mem fname_mem log).1 = none ↔
      (desc_mem = none ∨ fname_mem (TSTRLEN idx_path + 8) = none)) ∧
    ∀ d, (idxonly_open E idx_path desc_mem fname_mem log).1 = some d →
      d.base.db_type = E.TSK_HDB_DBTYPE_IDXONLY_ID ∧
      d.base.updateable = 0 ∧
      d.base.uses_external_index = 1 ∧
      d.base.hash_type = E.TSK_HDB_HTYPE_INVALID_ID ∧
      d.base.hash_len = 0 ∧
      d.base.makeindex = some HdbFn.idxonly_makeindex ∧
      d.getentry = some HdbFn.idxonly_getentry ∧
      d.base.add_comment = none ∧
      d.base.add_filename = none ∧
      d.base.idx_fname ≠ none ∧
      (idxonly_open E idx_path desc_mem fname_mem log).2 = log ++ [Call.tsk_init_lock] :=
  idxonly_open_fields E idx_path desc_mem fname_mem log

/-- C8: when the allocator hands out blocks of the requested size and `idxonly_open`
succeeds, `idx_fname` is a buffer of exactly path length + 8 characters that holds the
characters of the path followed by 8 NULs: the string in it is the whole path, and it is
not empty when the path is not. -/
theorem idxonly_open_copies_path (E : Env) (idx_path : List Nat)
    (desc_mem : Option TSK_TEXT_HDB_INFO) (fname_mem : Nat → Option (List Nat))
    (log : List Call) (d : TSK_TEXT_HDB_INFO)
    (hmem : ∀ n b, fname_mem n = some b → b.length = n)
    (hopen : (idxonly_open E idx_path desc_mem fname_mem log).1 = some d) :
    ∃ b, d.base.idx_fname = some b ∧
      b.length = TSTRLEN idx_path + 8 ∧
      b = cstr idx_path ++ List.replicate 8 0 ∧
      cstr b = cstr idx_path ∧
      (0 ∉ idx_path → b = idx_path ++ List.replicate 8 0) ∧
      (cstr idx_path ≠ [] → cstr b ≠ []) := by
  unfold idxonly_open at hopen
  cases desc_mem with
  | none => simp at hopen
  | some t =>
    cases hf : fname_mem (TSTRLEN idx_path + 8) with
    | none => simp [hf] at hopen
    | some block =>
      simp only [hf, Option.some.injEq] at hopen
      subst hopen
      have hb := TSTRNCPY_exact block idx_path (hmem _ _ hf)
      have hc : cstr (cstr idx_path ++ List.replicate 8 0) = cstr idx_path :=
        cstr_append_nul _ (List.replicate 7 0) (nul_not_mem_cstr idx_path)
      refine ⟨_, rfl, ?_, hb, ?_, ?_, ?_⟩
      · rw [hb]; simp [TSTRLEN]
      · rw [hb]; exact hc
      · intro h0; rw [hb, cstr_eq_self_of_no_nul _ h0]
      · intro hne; rw [hb, hc]; exact hne

set_option maxRecDepth 100000 in
/-- C8, at a concrete input: the path `a.idx` opened with an allocator that hands out
blocks filled with 255. -/
theorem idxonly_open_copies_path_witness :
    ∃ b, (sample_opened).base.idx_fname = some b ∧
      b.length = TSTRLEN [97, 46, 105, 100, 120] + 8 ∧
      b = cstr [97, 46, 105, 100, 120] ++ List.replicate 8 0 ∧
      cstr b = cstr [97, 46, 105, 100, 120] ∧
      (0 ∉ [97, 46, 105, 100, 120] → b = [97, 46, 105, 100, 120] ++ List.replicate 8 0) ∧
      (cstr [97, 46, 105, 100, 120] ≠ [] → cstr b ≠ []) :=
  idxonly_open_copies_path (sample_env 1 [] 0 0) [97, 46, 105, 100, 120] (some sample_block)
    (fun n => some (List.replicate n 255)) [] sample_opened
    (by intro n b h; simp only [Option.some.injEq] at h; subst h; simp)
    (by decide)


/-! ## The descriptor invariant -/

theorem flags_of_name_fallback (E : Env) (msg : String) (d : TSK_TEXT_HDB_INFO)
    (log : List Call) (hpath : ∀ x, flags_of (E.tsk_hdb_name_from_path x) = flags_of x) :
    flags_of (name_fallback E msg d log).1 = flags_of d := by
  unfold name_fallback
  exact hpath d

theorem idxonly_name_keeps_flags (E : Env)
    (hsetup : ∀ x h, flags_of (E.tsk_hdb_idxsetup x h).2 = flags_of x)
    (hpath : ∀ x, flags_of (E.tsk_hdb_name_from_path x) = flags_of x)
    (d : TSK_TEXT_HDB_INFO) (log : List Call) (s : TSK_TEXT_HDB_INFO × List Call)
    (h : idxonly_name E d log = .ok s) : flags_of s.1 = flags_of d := by
  have hcl : flags_of (E.tsk_hdb_idxsetup (cleared E d) E.TSK_HDB_HTYPE_MD5_ID).2 = flags_of d :=
    hsetup (cleared E d) E.TSK_HDB_HTYPE_MD5_ID
  by_cases hs : (E.tsk_hdb_idxsetup (cleared E d) E.TSK_HDB_HTYPE_MD5_ID).1 = 0
  · rw [idxonly_name_setup_failed E d log hs] at h
    injection h with h
    rw [← h, flags_of_name_fallback E _ _ _ hpath]
    exact hcl
  · cases hread : read_header E.TSK_HDB_NAME_MAXLEN
        (List.replicate E.TSK_HDB_NAME_MAXLEN none)
        (E.tsk_hdb_idxsetup (cleared E d) E.TSK_HDB_HTYPE_MD5_ID).2.idx.hIdx with
    | mk o hFile =>
      cases o with
      | none =>
        rw [idxonly_name_read_failed E d log hFile hs hread] at h
        injection h with h
        rw [← h, flags_of_name_fallback E _ _ _ hpath]
        exact hcl
      | some buf =>
        rw [idxonly_name_read_ok E d log buf hFile hs hread] at h
        cases hp : parse_header E buf
            (E.tsk_hdb_idxsetup (cleared E d) E.TSK_HDB_HTYPE_MD5_ID).2.idx.db_name with
        | error e =>
          rw [hp] at h
          injection h
        | ok o2 =>
          rw [hp] at h
          cases o2 with
          | none =>
            injection h with h
            rw [← h, flags_of_name_fallback E _ _ _ hpath]
            exact hcl
          | some n =>
            injection h with h
            rw [← h]
            exact hcl

theorem step_keeps_flags (E : Env)
    (hsetup : ∀ x h, flags_of (E.tsk_hdb_idxsetup x h).2 = flags_of x)
    (hpath : ∀ x, flags_of (E.tsk_hdb_name_from_path x) = flags_of x)
    (hinit : ∀ x t, flags_of ( E.tsk_hdb_idxinitialize x t).2 = flags_of x)
    (op : Op) (s s1 : TSK_TEXT_HDB_INFO × List Call)
    (h : step E op s = .ok s1) : flags_of s1.1 = flags_of s.1 := by
  cases op with
  | name => exact idxonly_name_keeps_flags E hsetup hpath s.1 s.2 s1 h
  | makeindex dbtype =>
    simp only [step] at h
    injection h with h
    rw [← h]
    unfold idxonly_makeindex
    by_cases hr : ( E.tsk_hdb_idxinitialize s.1
        (TSNPRINTF 1024 E.TSK_HDB_DBTYPE_MD5SUM_STR)).1 = 0
    · simp only [hr, ne_eq, not_true_eq_false, if_false]
      exact hinit _ _
    · simp only [hr, ne_eq, not_false_eq_true, if_true]
      exact hinit _ _
  | getentry hash offset flags action cb_ptr =>
    simp only [step] at h
    injection h with h
    rw [← h]

theorem run_keeps_flags (E : Env)
    (hsetup : ∀ x h, flags_of (E.tsk_hdb_idxsetup x h).2 = flags_of x)
    (hpath : ∀ x, flags_of (E.tsk_hdb_name_from_path x) = flags_of x)
    (hinit : ∀ x t, flags_of ( E.tsk_hdb_idxinitialize x t).2 = flags_of x)
    (ops : List Op) : ∀ (s s1 : TSK_TEXT_HDB_INFO × List Call),
    run E ops s = .ok s1 → flags_of s1.1 = flags_of s.1 := by
  induction ops with
  | nil =>
    intro s s1 h
    simp only [run] at h
    injection h with h
    rw [h]
  | cons op ops ih =>
    intro s s1 h
    simp only [run] at h
    cases hstep : step E op s with
    | error e =>
      rw [hstep] at h
      injection h
    | ok s2 =>
      rw [hstep] at h
      rw [ih s2 s1 h]
      exact step_keeps_flags E hsetup hpath hinit op s s2 hstep

/-- C6: in every state reached from a descriptor `idxonly_open` returned by running any
sequence of `idxonly_name`, `idxonly_makeindex` and `idxonly_getentry`, `updateable`
is 0, `uses_external_index` is 1 and the `getentry` slot holds `idxonly_getentry`,
provided the three index services leave these fields as they find them. -/
theorem idxonly_flags_invariant (E : Env) (idx_path : List Nat)
    (desc_mem : Option TSK_TEXT_HDB_INFO) (fname_mem : Nat → Option (List Nat))
    (log0 log1 log : List Call) (d0 d : TSK_TEXT_HDB_INFO) (ops : List Op)
    (hsetup : ∀ x h, flags_of (E.tsk_hdb_idxsetup x h).2 = flags_of x)
    (hpath : ∀ x, flags_of (E.tsk_hdb_name_from_path x) = flags_of x)
    (hinit : ∀ x t, flags_of ( E.tsk_hdb_idxinitialize x t).2 = flags_of x)
    (hopen : idxonly_open E idx_path desc_mem fname_mem log0 = (some d0, log1))
    (hrun : run E ops (d0, log1) = .ok (d, log)) :
    d.base.updateable = 0 ∧ d.base.uses_external_index = 1 ∧
      d.getentry = some HdbFn.idxonly_getentry := by
  have hfl := run_keeps_flags E hsetup hpath hinit ops (d0, log1) (d, log) hrun
  have h0 := (idxonly_open_fields E idx_path desc_mem fname_mem log0).2 d0
    (by rw [hopen])
  obtain ⟨_, hu, he, _, _, _, hg, _⟩ := h0
  have hfl0 : flags_of d0 = (0, 1, some HdbFn.idxonly_getentry) := by
    simp only [flags_of, hu, he, hg]
  simp only at hfl
  rw [hfl0] at hfl
  simp only [flags_of, Prod.mk.injEq] at hfl
  exact hfl


/-! ## The theorems at concrete inputs -/

set_option maxRecDepth 100000 in
/-- C2 at a concrete input: first line `T`, second line the marker, the delimiter and
`Foo Bar`, then a line feed; `db_name` is `Foo Bar` and 505 NULs. -/
theorem idxonly_name_reads_header_name_witness :
    ∃ d, idxonly_name (sample_env 1 header_file 0 0) sample_block [] =
        .ok (d, setup_log (sample_env 1 header_file 0 0) sample_block []) ∧
      d.idx.db_name = [70, 111, 111, 32, 66, 97, 114] ++
        List.replicate ((sample_env 1 header_file 0 0).TSK_HDB_NAME_MAXLEN -
          [70, 111, 111, 32, 66, 97, 114].length) 0 ∧
      d.idx.db_name.length = (sample_env 1 header_file 0 0).TSK_HDB_NAME_MAXLEN ∧
      d.base = (setup_result (sample_env 1 header_file 0 0) sample_block).2.base ∧
      d.getentry = (setup_result (sample_env 1 header_file 0 0) sample_block).2.getentry :=
  idxonly_name_reads_header_name (sample_env 1 header_file 0 0) sample_block []
    [84] [70, 111, 111, 32, 66, 97, 114] [10] []
    (by decide) (by decide) (by decide) (by decide) (by decide) (by rfl) (by decide)
    (by decide) (by decide) (by decide) (by decide) (by decide)

set_option maxRecDepth 100000 in
/-- C9 at a concrete input: the second line is the marker and `A`; the run ends in a
read through `NULL + 1`. -/
theorem idxonly_name_missing_delimiter_witness :
    idxonly_name (sample_env 1 no_delimiter_file 0 0) sample_block [] =
      .error UB.null_deref :=
  idxonly_name_missing_delimiter (sample_env 1 no_delimiter_file 0 0) sample_block []
    (by decide) (by decide) (by decide) (by decide) (by decide) (by decide)

set_option maxRecDepth 100000 in
/-- C10: a file whose first line has 554 bytes and ends in a marker line naming `e`, and
whose second line is the marker line naming `g`. The text compared and scanned is the
tail of the first line, not the second line, and `db_name` becomes `e`. -/
theorem idxonly_name_long_first_line_counterexample :
    header_text 512 ⟨long_first_line_file, 0⟩ = some (sample_line [101] ++ [10]) ∧
    second_line long_first_line_file = sample_line [103] ∧
    header_text 512 ⟨long_first_line_file, 0⟩ ≠ some (second_line long_first_line_file) ∧
    header_text 512 ⟨long_first_line_file, 0⟩ ≠
      some (second_line long_first_line_file ++ [10]) ∧
    (db_name_after
      (idxonly_name (sample_env 1 long_first_line_file 0 0) sample_block [])).take 2 =
        [101, 0] := by
  decide

set_option maxRecDepth 100000 in
/-- C10 as amended, at a concrete input: first line `T`, then the marker line. -/
theorem idxonly_name_skips_short_first_line_witness :
    header_text (sample_env 1 header_file 0 0).TSK_HDB_NAME_MAXLEN
        (setup_result (sample_env 1 header_file 0 0) sample_block).2.idx.hIdx =
      some (sample_line [70, 111, 111, 32, 66, 97, 114] ++ [10]) :=
  (idxonly_name_skips_short_first_line (sample_env 1 header_file 0 0) sample_block []
    [84] (sample_line [70, 111, 111, 32, 66, 97, 114] ++ [10])
    (by decide) (by decide) (by decide) (by decide) (by decide)).1.trans (by decide)

set_option maxRecDepth 100000 in
/-- C7 at a concrete input: the second line is longer than the buffer and is cut at the
buffer boundary. -/
theorem idxonly_name_db_name_wellformed_witness :
    ∃ d name, idxonly_name (sample_env 1 long_second_line_file 0 0) sample_block [] =
        .ok (d, setup_log (sample_env 1 long_second_line_file 0 0) sample_block []) ∧
      d.idx.db_name = name ++ List.replicate
        ((sample_env 1 long_second_line_file 0 0).TSK_HDB_NAME_MAXLEN - name.length) 0 ∧
      d.idx.db_name.length = (sample_env 1 long_second_line_file 0 0).TSK_HDB_NAME_MAXLEN ∧
      name.length + 2 ≤ (sample_env 1 long_second_line_file 0 0).TSK_HDB_NAME_MAXLEN ∧
      0 ∉ name ∧ 13 ∉ name ∧ 10 ∉ name :=
  idxonly_name_db_name_wellformed (sample_env 1 long_second_line_file 0 0) sample_block []
    ((read_header 512 (List.replicate 512 none) ⟨long_second_line_file, 0⟩).1.getD [])
    (read_header 512 (List.replicate 512 none) ⟨long_second_line_file, 0⟩).2 41 41
    (by decide) (by decide) (by rfl) (by decide) (by rfl) (by rfl) (by rfl)

set_option maxRecDepth 100000 in
/-- C6 at a concrete input: the descriptor opened for `a.idx`, then name, index creation,
lookup and name again. -/
theorem idxonly_flags_invariant_witness :
    ∃ s, run (sample_env 1 header_file 0 0) sample_ops (sample_opened, [Call.tsk_init_lock]) =
        .ok s ∧
      s.1.base.updateable = 0 ∧ s.1.base.uses_external_index = 1 ∧
      s.1.getentry = some HdbFn.idxonly_getentry := by
  cases h : run (sample_env 1 header_file 0 0) sample_ops
      (sample_opened, [Call.tsk_init_lock]) with
  | ok s =>
    exact ⟨s, rfl, idxonly_flags_invariant (sample_env 1 header_file 0 0)
      [97, 46, 105, 100, 120] (some sample_block) (fun n => some (List.replicate n 255))
      [] [Call.tsk_init_lock] s.2 sample_opened s.1 sample_ops
      (fun _ _ => rfl) (fun _ => rfl) (fun _ _ => rfl) (by decide) h⟩
  | error e =>
    have hok : (run (sample_env 1 header_file 0 0) sample_ops
        (sample_opened, [Call.tsk_init_lock])).toBool = true := by decide
    rw [h] at hok
    cases hok

set_option maxRecDepth 100000 in
/-- C3: an index that opens on a file of one line only, 511 times `A` and then the
marker line naming `e`. The file has fewer than two lines, yet both reads succeed, the
second read begins with the marker, `e` is copied into `db_name`, and
`tsk_hdb_name_from_path` is not called: the only call is `tsk_hdb_idxsetup`. -/
theorem idxonly_name_one_long_line_counterexample :
    fewer_than_two_lines one_line_file = true ∧
    (setup_result (sample_env 1 one_line_file 0 0) sample_block).1 ≠ 0 ∧
    index_file (sample_env 1 one_line_file 0 0) sample_block = one_line_file ∧
    (db_name_after
      (idxonly_name (sample_env 1 one_line_file 0 0) sample_block [])).take 2 = [101, 0] ∧
    log_after (idxonly_name (sample_env 1 one_line_file 0 0) sample_block []) =
      setup_log (sample_env 1 one_line_file 0 0) sample_block [] ∧
    (log_after (idxonly_name (sample_env 1 one_line_file 0 0) sample_block [])).any
      is_name_from_path = false := by
  decide

set_option maxRecDepth 100000 in
/-- C3 as amended, at a concrete input: the index opens on a file whose first line is `T`
and whose second line, `no|x`, does not begin with the marker; both reads succeed, no
byte of the file reaches `db_name`, which holds the path-derived name `nsrl`. -/
theorem idxonly_name_falls_back_to_path_witness :
    (∃ d1 diag,
      idxonly_name (sample_env 1 no_marker_file 0 0) sample_block [] =
        .ok ((sample_env 1 no_marker_file 0 0).tsk_hdb_name_from_path d1,
          [] ++ [Call.tsk_hdb_idxsetup (cleared (sample_env 1 no_marker_file 0 0) sample_block)
            (sample_env 1 no_marker_file 0 0).TSK_HDB_HTYPE_MD5_ID] ++ diag ++
            [Call.tsk_hdb_name_from_path d1]) ∧
      ((cleared (sample_env 1 no_marker_file 0 0) sample_block).idx.db_name.take
          (sample_env 1 no_marker_file 0 0).TSK_HDB_NAME_MAXLEN =
        List.replicate (sample_env 1 no_marker_file 0 0).TSK_HDB_NAME_MAXLEN 0) ∧
      (diag = [] ∨ ∃ msg, diag = [Call.fprintf_stderr msg]) ∧
      ((sample_env 1 no_marker_file 0 0).tsk_verbose = 0 → diag = []) ∧
      d1.base = (setup_result (sample_env 1 no_marker_file 0 0) sample_block).2.base ∧
      d1.getentry = (setup_result (sample_env 1 no_marker_file 0 0) sample_block).2.getentry ∧
      d1.idx.db_name =
        (setup_result (sample_env 1 no_marker_file 0 0) sample_block).2.idx.db_name ∧
      d1.idx.hIdx.content = index_file (sample_env 1 no_marker_file 0 0) sample_block) ∧
    (setup_result (sample_env 1 no_marker_file 0 0) sample_block).1 ≠ 0 ∧
    header_text 512 ⟨no_marker_file, 0⟩ = some [110, 111, 124, 120, 10] ∧
    (db_name_after
      (idxonly_name (sample_env 1 no_marker_file 0 0) sample_block [])).take 5 =
        [110, 115, 114, 108, 0] ∧
    (log_after (idxonly_name (sample_env 1 no_marker_file 0 0) sample_block [])).count
      (Call.tsk_hdb_name_from_path
        { (setup_result (sample_env 1 no_marker_file 0 0) sample_block).2 with
          idx := { (setup_result (sample_env 1 no_marker_file 0 0) sample_block).2.idx with
            hIdx := ⟨no_marker_file, 7⟩ } }) = 1 :=
  ⟨idxonly_name_falls_back_to_path (sample_env 1 no_marker_file 0 0) sample_block []
      (Or.inr (Or.inr (Or.inr (Or.inl
        ⟨by decide, ⟨[84], [110, 111, 124, 120, 10], by decide, by decide, by decide⟩,
          by decide⟩)))),
    by decide, by decide, by decide, by decide⟩

end IdxOnly
